import Mathlib

/-!
SICORA user service: domain entities and validation layer.

A shallow embedding of `userservice/internal/domain/entities` (`validation.go`,
`user.go`, `mfa_entities.go`).

Modelling conventions.

* A Go `string` holding well-formed UTF-8 text is a Lean `String`, i.e. its
  sequence of runes.  Go's builtin `len` counts *bytes*, so it is modelled by
  `len`, the sum of the UTF-8 widths of the runes, and not by `String.length`.
* A Go `error` is an `Option DomainError` (`none` is `nil`).
* `regexp.MatchString` is modelled by a derivative matcher over a small regular
  expression syntax; every pattern of the source is written out as a term of
  that syntax next to the pattern text it stands for.
* `time.Now()` and `uuid.New()` are explicit inputs of the functions calling them.
-/

namespace Sicora

/-! ## Go strings -/

/-- Number of bytes of the UTF-8 encoding of a rune (`utf8.RuneLen`). -/
def runeLen (c : Char) : Nat :=
  if c.toNat < 0x80 then 1
  else if c.toNat < 0x800 then 2
  else if c.toNat < 0x10000 then 3
  else 4

/-- Byte length of a rune sequence. -/
def byteLen : List Char → Nat
  | [] => 0
  | c :: cs => runeLen c + byteLen cs

/-- Go's builtin `len` on a string: the number of bytes. -/
def len (s : String) : Nat := byteLen s.data

/-- The rune `c` lies in the inclusive range `lo-hi` of a character class. -/
def inRange (lo hi c : Char) : Bool :=
  decide (lo.toNat ≤ c.toNat) && decide (c.toNat ≤ hi.toNat)

/-- Class `[a-z]`. -/
def isLowerAZ (c : Char) : Bool := inRange 'a' 'z' c

/-- Class `[A-Z]`. -/
def isUpperAZ (c : Char) : Bool := inRange 'A' 'Z' c

/-- Class `[0-9]`. -/
def isDigit09 (c : Char) : Bool := inRange '0' '9' c

/-- Perl class `\s` of Go's RE2 syntax: `[\t\n\f\r ]`. -/
def isPerlSpace (c : Char) : Bool :=
  c == '\t' || c == '\n' || c == Char.ofNat 0x0C || c == '\r' || c == ' '

/-! ## Regular expressions (`regexp.MatchString`) -/

/-- Regular expressions over runes; `cls p` is a character class. -/
inductive Regex where
  | fail : Regex
  | eps : Regex
  | cls (p : Char → Bool) : Regex
  | alt (r s : Regex) : Regex
  | cat (r s : Regex) : Regex
  | star (r : Regex) : Regex

namespace Regex

/-- The expression accepts the empty string. -/
def nullable : Regex → Bool
  | fail => false
  | eps => true
  | cls _ => false
  | alt r s => r.nullable || s.nullable
  | cat r s => r.nullable && s.nullable
  | star _ => true

/-- Brzozowski derivative with respect to one rune. -/
def deriv : Regex → Char → Regex
  | fail, _ => fail
  | eps, _ => fail
  | cls p, c => if p c then eps else fail
  | alt r s, c => alt (r.deriv c) (s.deriv c)
  | cat r s, c =>
      if r.nullable then alt (cat (r.deriv c) s) (s.deriv c) else cat (r.deriv c) s
  | star r, c => cat (r.deriv c) (star r)

/-- Whole-input match. -/
def rmatch : Regex → List Char → Bool
  | r, [] => r.nullable
  | r, c :: cs => rmatch (r.deriv c) cs

/-- Quantifier `+`. -/
def plus (r : Regex) : Regex := cat r (star r)

/-- Quantifier `{n,}`. -/
def atLeast : Nat → Regex → Regex
  | 0, r => star r
  | n + 1, r => cat r (atLeast n r)

/-- Quantifier `{n}`. -/
def exactly : Nat → Regex → Regex
  | 0, _ => eps
  | n + 1, r => cat r (exactly n r)

/-- A literal rune. -/
def chr (c : Char) : Regex := cls (fun x => x == c)

/-- Any rune at all. -/
def anyRune : Regex := cls (fun _ => true)

/-- An unanchored pattern matches when some substring matches. -/
def search (r : Regex) : Regex := cat (star anyRune) (cat r (star anyRune))

/-- Denotation of a regular expression. -/
inductive Matches : Regex → List Char → Prop
  | eps : Matches eps []
  | cls (p : Char → Bool) (c : Char) : p c = true → Matches (cls p) [c]
  | altL (r s : Regex) (x : List Char) : Matches r x → Matches (alt r s) x
  | altR (r s : Regex) (x : List Char) : Matches s x → Matches (alt r s) x
  | cat (r s : Regex) (x y : List Char) :
      Matches r x → Matches s y → Matches (cat r s) (x ++ y)
  | starNil (r : Regex) : Matches (star r) []
  | starCons (r : Regex) (x y : List Char) :
      Matches r x → Matches (star r) y → Matches (star r) (x ++ y)

end Regex

/-- Model of `regexp.MatchString(pattern, s)` for a compiled pattern `re`. -/
def MatchString (re : Regex) (s : String) : Bool := re.rmatch s.data

/-! ## validation.go -/

/-- DomainError representa un error del dominio. -/
structure DomainError where
  Message : String
  deriving DecidableEq, Repr

/-- NewDomainError crea un nuevo error de dominio. -/
def NewDomainError (message : String) : DomainError := ⟨message⟩

/-- Pattern `[a-z]` (unanchored). -/
def rePasswordLower : Regex := Regex.search (Regex.cls isLowerAZ)

/-- Pattern `[A-Z]` (unanchored). -/
def rePasswordUpper : Regex := Regex.search (Regex.cls isUpperAZ)

/-- Pattern `[0-9]` (unanchored). -/
def rePasswordDigit : Regex := Regex.search (Regex.cls isDigit09)

/-- Class `[!@#$%^&*]`. -/
def isPasswordSpecial (c : Char) : Bool :=
  c == '!' || c == '@' || c == '#' || c == '$' || c == '%' || c == '^' || c == '&' || c == '*'

/-- Pattern `[!@#$%^&*]` (unanchored). -/
def rePasswordSpecial : Regex := Regex.search (Regex.cls isPasswordSpecial)

/-- ValidatePassword valida la contraseña del usuario de acuerdo con las políticas. -/
def ValidatePassword (password : String) : Option DomainError :=
  if len password < 10 then
    some (NewDomainError "La contraseña debe tener al menos 10 caracteres")
  else if len password > 128 then
    some (NewDomainError "La contraseña no debe exceder los 128 caracteres")
  else if !MatchString rePasswordLower password then
    some (NewDomainError "La contraseña debe contener al menos una letra minúscula")
  else if !MatchString rePasswordUpper password then
    some (NewDomainError "La contraseña debe contener al menos una letra mayúscula")
  else if !MatchString rePasswordDigit password then
    some (NewDomainError "La contraseña debe contener al menos un número")
  else if !MatchString rePasswordSpecial password then
    some (NewDomainError "La contraseña debe contener al menos un carácter especial (!@#$%^&*)")
  else
    none

/-- Go's `unicode.IsSpace`: the Latin-1 white space runes and the `White_Space`
property of the other planes. -/
def unicodeIsSpace (c : Char) : Bool :=
  if c.toNat ≤ 0xFF then
    c == '\t' || c == '\n' || c == Char.ofNat 0x0B || c == Char.ofNat 0x0C || c == '\r'
      || c == ' ' || c == Char.ofNat 0x85 || c == Char.ofNat 0xA0
  else
    c == Char.ofNat 0x1680 || inRange (Char.ofNat 0x2000) (Char.ofNat 0x200A) c
      || c == Char.ofNat 0x2028 || c == Char.ofNat 0x2029 || c == Char.ofNat 0x202F
      || c == Char.ofNat 0x205F || c == Char.ofNat 0x3000

/-- Go's `strings.TrimSpace`: leading and trailing white space removed. -/
def TrimSpace (s : String) : String :=
  ⟨((s.data.dropWhile unicodeIsSpace).reverse.dropWhile unicodeIsSpace).reverse⟩

/-- Go's `unicode.ToLower`.  The ASCII branch is the library's; for the other runes the
library consults its Unicode case table, which is the parameter `caseTable`. -/
def unicodeToLower (caseTable : Char → Char) (r : Char) : Char :=
  if r.toNat ≤ 0x7F then
    if isUpperAZ r then Char.ofNat (r.toNat + 32) else r
  else caseTable r

/-- Go's `strings.ToLower`: every rune mapped by `unicode.ToLower`. -/
def ToLower (caseTable : Char → Char) (s : String) : String :=
  ⟨s.data.map (unicodeToLower caseTable)⟩

/-- Class `[a-zA-ZáéíóúÁÉÍÓÚñÑ\s]`. -/
def isNameRune (c : Char) : Bool :=
  isLowerAZ c || isUpperAZ c
    || c == 'á' || c == 'é' || c == 'í' || c == 'ó' || c == 'ú'
    || c == 'Á' || c == 'É' || c == 'Í' || c == 'Ó' || c == 'Ú'
    || c == 'ñ' || c == 'Ñ' || isPerlSpace c

/-- Pattern `^[a-zA-ZáéíóúÁÉÍÓÚñÑ\s]+$`. -/
def reName : Regex := Regex.plus (Regex.cls isNameRune)

/-- validateFirstName valida el nombre del usuario. -/
def validateFirstName (firstName : String) : Option DomainError :=
  let firstName := TrimSpace firstName
  if len firstName < 2 then
    some (NewDomainError "El nombre debe tener al menos 2 caracteres")
  else if len firstName > 100 then
    some (NewDomainError "El nombre no debe exceder los 100 caracteres")
  else if !MatchString reName firstName then
    some (NewDomainError "El nombre solo puede contener letras, espacios y acentos")
  else
    none

/-- validateLastName valida el apellido del usuario. -/
def validateLastName (lastName : String) : Option DomainError :=
  let lastName := TrimSpace lastName
  if len lastName < 2 then
    some (NewDomainError "El apellido debe tener al menos 2 caracteres")
  else if len lastName > 100 then
    some (NewDomainError "El apellido no debe exceder los 100 caracteres")
  else if !MatchString reName lastName then
    some (NewDomainError "El apellido solo puede contener letras, espacios y acentos")
  else
    none

/-- Class `[a-z0-9._%+\-]`. -/
def isEmailLocalRune (c : Char) : Bool :=
  isLowerAZ c || isDigit09 c || c == '.' || c == '_' || c == '%' || c == '+' || c == '-'

/-- Class `[a-z0-9.\-]`. -/
def isEmailDomainRune (c : Char) : Bool :=
  isLowerAZ c || isDigit09 c || c == '.' || c == '-'

/-- Pattern `^[a-z0-9._%+\-]+@[a-z0-9.\-]+\.[a-z]{2,}$`. -/
def emailRegex : Regex :=
  Regex.cat (Regex.plus (Regex.cls isEmailLocalRune))
    (Regex.cat (Regex.chr '@')
      (Regex.cat (Regex.plus (Regex.cls isEmailDomainRune))
        (Regex.cat (Regex.chr '.') (Regex.atLeast 2 (Regex.cls isLowerAZ)))))

/-- validateEmail valida el formato del email. -/
def validateEmail (caseTable : Char → Char) (email : String) : Option DomainError :=
  let email := TrimSpace (ToLower caseTable email)
  if len email = 0 then
    some (NewDomainError "El email no puede estar vacío")
  else if len email > 100 then
    some (NewDomainError "El email no debe exceder los 100 caracteres")
  else if !MatchString emailRegex email then
    some (NewDomainError "El email no tiene un formato válido")
  else
    none

/-- Class `[a-zA-Z0-9\-]`. -/
def isDocumentRune (c : Char) : Bool :=
  isLowerAZ c || isUpperAZ c || isDigit09 c || c == '-'

/-- Pattern `^[a-zA-Z0-9\-]+$`. -/
def reDocumentNumber : Regex := Regex.plus (Regex.cls isDocumentRune)

/-- validateDocumentNumber valida el número de documento del usuario. -/
def validateDocumentNumber (documentNumber : String) : Option DomainError :=
  let documentNumber := TrimSpace documentNumber
  if len documentNumber < 7 then
    some (NewDomainError "El número de documento debe tener al menos 7 caracteres")
  else if len documentNumber > 20 then
    some (NewDomainError "El número de documento no debe exceder los 20 caracteres")
  else if !MatchString reDocumentNumber documentNumber then
    some (NewDomainError
      "El número de documento solo puede contener números, letras y guiones")
  else
    none

/-! ## user.go -/

/-- UserRole representa los roles disponibles en el sistema SICORA. -/
abbrev UserRole := String

def RoleAprendiz : UserRole := "aprendiz"
def RoleInstructor : UserRole := "instructor"
def RoleAdmin : UserRole := "admin"
def RoleCoordinador : UserRole := "coordinador"
def RoleDirectivo : UserRole := "directivo"

/-- validateRole valida que el rol sea válido. -/
def validateRole (role : UserRole) : Option DomainError :=
  if role = RoleAprendiz ∨ role = RoleInstructor ∨ role = RoleAdmin
      ∨ role = RoleCoordinador ∨ role = RoleDirectivo then
    none
  else
    some (NewDomainError
      "El rol no es válido: debe ser aprendiz, instructor, admin, coordinador o directivo")

/-- ValidateUserRole valida que el rol sea válido. -/
def ValidateUserRole (role : UserRole) : Option DomainError := validateRole role

/-- validateUserData valida los datos básicos del usuario según reglas de dominio. -/
def validateUserData (caseTable : Char → Char)
    (firstName lastName email documentNumber : String) (role : UserRole) :
    Option DomainError :=
  match validateFirstName firstName with
  | some err => some err
  | none =>
    match validateLastName lastName with
    | some err => some err
    | none =>
      match validateEmail caseTable email with
      | some err => some err
      | none =>
        match validateDocumentNumber documentNumber with
        | some err => some err
        | none =>
          match validateRole role with
          | some err => some err
          | none => none

/-- A `time.Time` instant, in nanoseconds on the wall clock. -/
abbrev Time := Int

/-- A `uuid.UUID`, as the 128-bit number it encodes. -/
abbrev UUID := Nat

/-- User representa la entidad de usuario en el dominio SICORA. -/
structure User where
  ID : UUID
  FirstName : String
  LastName : String
  Email : String
  DocumentNumber : String
  DocumentType : String
  Phone : Option String
  Role : UserRole
  Status : String
  Password : String
  IsActive : Bool
  FichaID : Option String
  SedeID : Option UUID
  EmailVerified : Bool
  EmailVerifiedAt : Option Time
  AcceptedPrivacyPolicyAt : Option Time
  AcceptedTermsAt : Option Time
  AcceptedDataTreatmentAt : Option Time
  PrivacyPolicyVersion : Option String
  TermsVersion : Option String
  DataTreatmentVersion : Option String
  AcceptanceIPAddress : Option String
  CreatedAt : Time
  UpdatedAt : Time
  LastLogin : Option Time
  deriving DecidableEq, Repr

/-- NewUser crea una nueva instancia de User con validaciones de dominio.  The fields the
composite literal leaves out take Go's zero value; `id` is `uuid.New()` and `now` is
`time.Now()`. -/
def NewUser (caseTable : Char → Char) (id : UUID) (now : Time)
    (firstName lastName email documentNumber documentType : String) (role : UserRole) :
    Except DomainError User :=
  match validateUserData caseTable firstName lastName email documentNumber role with
  | some err => Except.error err
  | none =>
    Except.ok
      { ID := id
        FirstName := firstName
        LastName := lastName
        Email := email
        DocumentNumber := documentNumber
        DocumentType := documentType
        Phone := none
        Role := role
        Status := "active"
        Password := ""
        IsActive := true
        FichaID := none
        SedeID := none
        EmailVerified := false
        EmailVerifiedAt := none
        AcceptedPrivacyPolicyAt := none
        AcceptedTermsAt := none
        AcceptedDataTreatmentAt := none
        PrivacyPolicyVersion := none
        TermsVersion := none
        DataTreatmentVersion := none
        AcceptanceIPAddress := none
        CreatedAt := now
        UpdatedAt := now
        LastLogin := none }

namespace User

/-- MarkAsLoggedIn actualiza el timestamp del último login. -/
def MarkAsLoggedIn (now : Time) (u : User) : User :=
  { u with LastLogin := some now, UpdatedAt := now }

/-- Deactivate desactiva al usuario. -/
def Deactivate (now : Time) (u : User) : User :=
  { u with IsActive := false, UpdatedAt := now }

/-- Activate activa el usuario. -/
def Activate (now : Time) (u : User) : User :=
  { u with IsActive := true, UpdatedAt := now }

/-- AcceptLegalPolicies registra la aceptación de las políticas legales. -/
def AcceptLegalPolicies (now : Time) (u : User)
    (privacyVersion termsVersion dataVersion ipAddress : String) : User :=
  { u with
    AcceptedPrivacyPolicyAt := some now
    AcceptedTermsAt := some now
    AcceptedDataTreatmentAt := some now
    PrivacyPolicyVersion := some privacyVersion
    TermsVersion := some termsVersion
    DataTreatmentVersion := some dataVersion
    AcceptanceIPAddress := some ipAddress
    UpdatedAt := now }

/-- HasAcceptedAllPolicies verifica si el usuario ha aceptado todas las políticas
requeridas. -/
def HasAcceptedAllPolicies (u : User) : Bool :=
  u.AcceptedPrivacyPolicyAt.isSome && u.AcceptedTermsAt.isSome
    && u.AcceptedDataTreatmentAt.isSome

/-- The disjunct `p != nil && *p != current` of `NeedsPolicyUpdate`. -/
def versionDiffers (stored : Option String) (current : String) : Bool :=
  match stored with
  | none => false
  | some v => v != current

/-- NeedsPolicyUpdate verifica si el usuario necesita re-aceptar políticas por cambio de
versión. -/
def NeedsPolicyUpdate (u : User)
    (currentPrivacyVersion currentTermsVersion currentDataVersion : String) : Bool :=
  if !u.HasAcceptedAllPolicies then
    true
  else
    versionDiffers u.PrivacyPolicyVersion currentPrivacyVersion
      || versionDiffers u.TermsVersion currentTermsVersion
      || versionDiffers u.DataTreatmentVersion currentDataVersion

/-- CanAccessSystem verifica si el usuario puede acceder al sistema. -/
def CanAccessSystem (u : User) : Bool :=
  u.IsActive && u.HasAcceptedAllPolicies

end User

/-! ## JSON representation (`encoding/json` on the struct tags) -/

/-- The Go values held by the fields of the entities; `nil` is the nil pointer. -/
inductive GoValue where
  | str (s : String)
  | bool (b : Bool)
  | int (n : Int)
  | uuid (u : UUID)
  | time (t : Time)
  | nil
  | ptr (v : GoValue)
  deriving Repr

/-- JSON values as emitted by `json.Marshal`. -/
inductive JSONValue where
  | null
  | bool (b : Bool)
  | num (n : Int)
  | str (s : String)
  | uuid (u : UUID)
  | time (t : Time)
  deriving DecidableEq, Repr

/-- What `omitempty` regards as empty: false, 0, a nil pointer, an empty string.  Arrays
of fixed non-zero length (`uuid.UUID`) and structs (`time.Time`) are never empty. -/
def isEmptyValue : GoValue → Bool
  | GoValue.str s => s.data.isEmpty
  | GoValue.bool b => !b
  | GoValue.int n => n == 0
  | GoValue.uuid _ => false
  | GoValue.time _ => false
  | GoValue.nil => true
  | GoValue.ptr _ => false

/-- The JSON encoding of a value; a nil pointer is `null`, another pointer is followed. -/
def encodeValue : GoValue → JSONValue
  | GoValue.str s => JSONValue.str s
  | GoValue.bool b => JSONValue.bool b
  | GoValue.int n => JSONValue.num n
  | GoValue.uuid u => JSONValue.uuid u
  | GoValue.time t => JSONValue.time t
  | GoValue.nil => JSONValue.null
  | GoValue.ptr v => encodeValue v

/-- The pieces of a comma-separated list. -/
def splitComma (cs : List Char) : List (List Char) :=
  cs.foldr
    (fun c acc =>
      if c == ',' then [] :: acc
      else
        match acc with
        | [] => [[c]]
        | h :: t => (c :: h) :: t)
    [[]]

/-- The name part of a `json` struct tag: what precedes the first comma. -/
def tagName (tag : String) : String := ⟨tag.data.takeWhile (fun c => c != ',')⟩

/-- The struct tag carries the option `omitempty` after its name. -/
def tagOmitEmpty (tag : String) : Bool :=
  (splitComma ((tag.data.dropWhile (fun c => c != ',')).drop 1)).contains "omitempty".data

/-- A struct field as `json.Marshal` sees it: Go name, `json` tag, value. -/
structure StructField where
  goName : String
  tag : String
  value : GoValue

/-- The check `isValidTag` of `encoding/json` on a tag name: non-empty, made of letters,
digits and the punctuation listed.  Letters and digits are the ASCII ones here; no tag
of the entities holds a rune outside ASCII. -/
def isValidTag (name : String) : Bool :=
  !name.data.isEmpty
    && name.data.all (fun c =>
        "!#$%&()*+-./:;<=>?@[]^_\x7b|\x7d~ ".data.contains c
          || isLowerAZ c || isUpperAZ c || isDigit09 c)

/-- The key and value `json.Marshal` emits for one field, if any: a field tagged `-` is
skipped, and so is an empty `omitempty` field; the key is the tag's name, or the Go
name when the tag has no valid name. -/
def marshalField (f : StructField) : Option (String × JSONValue) :=
  if f.tag = "-" then none
  else if tagOmitEmpty f.tag && isEmptyValue f.value then none
  else
    some (if isValidTag (tagName f.tag) then tagName f.tag else f.goName,
      encodeValue f.value)

/-- The object `json.Marshal` emits for a struct: its fields in declaration order. -/
def marshalStruct (fs : List StructField) : List (String × JSONValue) :=
  fs.filterMap marshalField

/-- A `*string` field. -/
def ptrStr (p : Option String) : GoValue := 
  match p with
  | none => GoValue.nil
  | some v => GoValue.ptr (GoValue.str v)

/-- A `*time.Time` field. -/
def ptrTime (p : Option Time) : GoValue := 
  match p with
  | none => GoValue.nil
  | some v => GoValue.ptr (GoValue.time v)

/-- A `*uuid.UUID` field. -/
def ptrUUID (p : Option UUID) : GoValue := 
  match p with
  | none => GoValue.nil
  | some v => GoValue.ptr (GoValue.uuid v)

/-- The fields of `User` with their `json` tags, as declared. -/
def User.fields (u : User) : List StructField :=
  [ ⟨"ID", "id", GoValue.uuid u.ID⟩,
    ⟨"FirstName", "first_name", GoValue.str u.FirstName⟩,
    ⟨"LastName", "last_name", GoValue.str u.LastName⟩,
    ⟨"Email", "email", GoValue.str u.Email⟩,
    ⟨"DocumentNumber", "document_number", GoValue.str u.DocumentNumber⟩,
    ⟨"DocumentType", "document_type", GoValue.str u.DocumentType⟩,
    ⟨"Phone", "phone", ptrStr u.Phone⟩,
    ⟨"Role", "role", GoValue.str u.Role⟩,
    ⟨"Status", "status", GoValue.str u.Status⟩,
    ⟨"Password", "_", GoValue.str u.Password⟩,
    ⟨"IsActive", "is_active", GoValue.bool u.IsActive⟩,
    ⟨"FichaID", "ficha_id,omitempty", ptrStr u.FichaID⟩,
    ⟨"SedeID", "sede_id,omitempty", ptrUUID u.SedeID⟩,
    ⟨"EmailVerified", "email_verified", GoValue.bool u.EmailVerified⟩,
    ⟨"EmailVerifiedAt", "email_verified_at,omitempty", ptrTime u.EmailVerifiedAt⟩,
    ⟨"AcceptedPrivacyPolicyAt", "accepted_privacy_policy_at,omitempty",
      ptrTime u.AcceptedPrivacyPolicyAt⟩,
    ⟨"AcceptedTermsAt", "accepted_terms_at,omitempty", ptrTime u.AcceptedTermsAt⟩,
    ⟨"AcceptedDataTreatmentAt", "accepted_data_treatment_at,omitempty",
      ptrTime u.AcceptedDataTreatmentAt⟩,
    ⟨"PrivacyPolicyVersion", "privacy_policy_version,omitempty",
      ptrStr u.PrivacyPolicyVersion⟩,
    ⟨"TermsVersion", "terms_version,omitempty", ptrStr u.TermsVersion⟩,
    ⟨"DataTreatmentVersion", "data_treatment_version,omitempty",
      ptrStr u.DataTreatmentVersion⟩,
    ⟨"AcceptanceIPAddress", "acceptance_ip_address,omitempty",
      ptrStr u.AcceptanceIPAddress⟩,
    ⟨"CreatedAt", "created_at", GoValue.time u.CreatedAt⟩,
    ⟨"UpdatedAt", "updated_at", GoValue.time u.UpdatedAt⟩,
    ⟨"LastLogin", "last_login,omitempty", ptrTime u.LastLogin⟩ ]

/-- The JSON object of a `User`. -/
def User.toJSON (u : User) : List (String × JSONValue) := marshalStruct u.fields

/-- A stored user: an administrator who has set the password `pw`. -/
def storedAdmin (pw : String) : User :=
  { ID := 7
    FirstName := "Ana"
    LastName := "Diaz"
    Email := "ana@sena.edu.co"
    DocumentNumber := "1234567"
    DocumentType := "CC"
    Phone := none
    Role := RoleAdmin
    Status := "active"
    Password := pw
    IsActive := true
    FichaID := none
    SedeID := none
    EmailVerified := true
    EmailVerifiedAt := some 10
    AcceptedPrivacyPolicyAt := none
    AcceptedTermsAt := none
    AcceptedDataTreatmentAt := none
    PrivacyPolicyVersion := none
    TermsVersion := none
    DataTreatmentVersion := none
    AcceptanceIPAddress := none
    CreatedAt := 5
    UpdatedAt := 10
    LastLogin := none }

/-! ## validation.go: ficha identifiers -/

/-- Pattern `^[0-9]{7}$`. -/
def reFichaID : Regex := Regex.exactly 7 (Regex.cls isDigit09)

/-- ValidateFichaID valida el formato de ID de ficha. -/
def ValidateFichaID (fichaID : String) : Option DomainError :=
  if len fichaID = 0 then
    some (NewDomainError "El ID de ficha no puede estar vacío")
  else if !MatchString reFichaID fichaID then
    some (NewDomainError "El ID de ficha debe tener un formato numérico de 7 dígitos")
  else
    none

/-! ## user.go: sequences of mutator calls -/

/-- One call of a mutator of `User`, with the clock reading it takes. -/
inductive Mutation where
  | markAsLoggedIn (now : Time)
  | activate (now : Time)
  | deactivate (now : Time)
  | acceptLegalPolicies (now : Time)
      (privacyVersion termsVersion dataVersion ipAddress : String)

/-- The user after one mutator call. -/
def User.mutate (u : User) : Mutation → User
  | Mutation.markAsLoggedIn now => u.MarkAsLoggedIn now
  | Mutation.activate now => u.Activate now
  | Mutation.deactivate now => u.Deactivate now
  | Mutation.acceptLegalPolicies now pv tv dv ip => u.AcceptLegalPolicies now pv tv dv ip

/-- The user after a sequence of mutator calls, first call first. -/
def User.mutateAll (u : User) (ms : List Mutation) : User := ms.foldl User.mutate u

/-- The fields of a `User` that `MarkAsLoggedIn`, `Activate` and `Deactivate` have no
assignment to: all but `IsActive`, `LastLogin` and `UpdatedAt`. -/
structure UserFrame where
  ID : UUID
  FirstName : String
  LastName : String
  Email : String
  DocumentNumber : String
  DocumentType : String
  Phone : Option String
  Role : UserRole
  Status : String
  Password : String
  FichaID : Option String
  SedeID : Option UUID
  EmailVerified : Bool
  EmailVerifiedAt : Option Time
  AcceptedPrivacyPolicyAt : Option Time
  AcceptedTermsAt : Option Time
  AcceptedDataTreatmentAt : Option Time
  PrivacyPolicyVersion : Option String
  TermsVersion : Option String
  DataTreatmentVersion : Option String
  AcceptanceIPAddress : Option String
  CreatedAt : Time
  deriving DecidableEq, Repr

/-- The part of a user outside `IsActive`, `LastLogin` and `UpdatedAt`. -/
def User.frame (u : User) : UserFrame :=
  { ID := u.ID
    FirstName := u.FirstName
    LastName := u.LastName
    Email := u.Email
    DocumentNumber := u.DocumentNumber
    DocumentType := u.DocumentType
    Phone := u.Phone
    Role := u.Role
    Status := u.Status
    Password := u.Password
    FichaID := u.FichaID
    SedeID := u.SedeID
    EmailVerified := u.EmailVerified
    EmailVerifiedAt := u.EmailVerifiedAt
    AcceptedPrivacyPolicyAt := u.AcceptedPrivacyPolicyAt
    AcceptedTermsAt := u.AcceptedTermsAt
    AcceptedDataTreatmentAt := u.AcceptedDataTreatmentAt
    PrivacyPolicyVersion := u.PrivacyPolicyVersion
    TermsVersion := u.TermsVersion
    DataTreatmentVersion := u.DataTreatmentVersion
    AcceptanceIPAddress := u.AcceptanceIPAddress
    CreatedAt := u.CreatedAt }

/-- The seven consent fields (three timestamps, three versions, acceptance IP) are all
nil or all set. -/
def User.ConsentAllOrNone (u : User) : Prop :=
  (u.AcceptedPrivacyPolicyAt = none ∧ u.AcceptedTermsAt = none
      ∧ u.AcceptedDataTreatmentAt = none ∧ u.PrivacyPolicyVersion = none
      ∧ u.TermsVersion = none ∧ u.DataTreatmentVersion = none
      ∧ u.AcceptanceIPAddress = none)
    ∨ (u.AcceptedPrivacyPolicyAt ≠ none ∧ u.AcceptedTermsAt ≠ none
      ∧ u.AcceptedDataTreatmentAt ≠ none ∧ u.PrivacyPolicyVersion ≠ none
      ∧ u.TermsVersion ≠ none ∧ u.DataTreatmentVersion ≠ none
      ∧ u.AcceptanceIPAddress ≠ none)

/-! ## mfa_entities.go -/

/-- UserMFAMethod representa los métodos de MFA configurados para un usuario. -/
structure UserMFAMethod where
  ID : UUID
  UserID : UUID
  MethodType : String
  IsPrimary : Bool
  IsEnabled : Bool
  SecretEncrypted : Option String
  PhoneNumber : Option String
  EmailAddress : Option String
  WebAuthnData : Option String
  LastUsedAt : Option Time
  CreatedAt : Time
  UpdatedAt : Time
  deriving DecidableEq, Repr

/-- MFABackupCode representa códigos de recuperación de un solo uso. -/
structure MFABackupCode where
  ID : UUID
  UserID : UUID
  CodeHash : String
  IsUsed : Bool
  UsedAt : Option Time
  CreatedAt : Time
  ExpiresAt : Time
  deriving DecidableEq, Repr

/-- MFASession representa sesiones de verificación MFA.  `Attempts` and `MaxAttempts` are
Go `int`s; the entity's methods do no arithmetic on them. -/
structure MFASession where
  ID : UUID
  UserID : UUID
  MethodType : String
  CodeHash : Option String
  IsVerified : Bool
  VerifiedAt : Option Time
  Attempts : Int
  MaxAttempts : Int
  IPAddress : String
  UserAgent : String
  CreatedAt : Time
  ExpiresAt : Time
  deriving DecidableEq, Repr

namespace MFASession

/-- IsExpired verifica si la sesión MFA ha expirado: `time.Now().After(s.ExpiresAt)`, with
`now` the clock reading.  The method has a pointer receiver; the second component is the
session it leaves behind. -/
def IsExpired (now : Time) (s : MFASession) : Bool × MFASession :=
  (decide (s.ExpiresAt < now), s)

/-- HasExceededAttempts verifica si se excedieron los intentos permitidos. -/
def HasExceededAttempts (s : MFASession) : Bool :=
  decide (s.Attempts ≥ s.MaxAttempts)

end MFASession

/-- The fields of `UserMFAMethod` with their `json` tags, as declared. -/
def UserMFAMethod.fields (m : UserMFAMethod) : List StructField :=
  [ ⟨"ID", "id_user_mfa_method", GoValue.uuid m.ID⟩,
    ⟨"UserID", "user_id_user_mfa_method", GoValue.uuid m.UserID⟩,
    ⟨"MethodType", "method_type_user_mfa_method", GoValue.str m.MethodType⟩,
    ⟨"IsPrimary", "is_primary_user_mfa_method", GoValue.bool m.IsPrimary⟩,
    ⟨"IsEnabled", "is_enabled_user_mfa_method", GoValue.bool m.IsEnabled⟩,
    ⟨"SecretEncrypted", "-", ptrStr m.SecretEncrypted⟩,
    ⟨"PhoneNumber", "phone_number_user_mfa_method,omitempty", ptrStr m.PhoneNumber⟩,
    ⟨"EmailAddress", "email_address_user_mfa_method,omitempty", ptrStr m.EmailAddress⟩,
    ⟨"WebAuthnData", "-", ptrStr m.WebAuthnData⟩,
    ⟨"LastUsedAt", "last_used_at_user_mfa_method,omitempty", ptrTime m.LastUsedAt⟩,
    ⟨"CreatedAt", "created_at_user_mfa_method", GoValue.time m.CreatedAt⟩,
    ⟨"UpdatedAt", "updated_at_user_mfa_method", GoValue.time m.UpdatedAt⟩ ]

/-- The JSON object of a `UserMFAMethod`. -/
def UserMFAMethod.toJSON (m : UserMFAMethod) : List (String × JSONValue) :=
  marshalStruct m.fields

/-- The fields of `MFABackupCode` with their `json` tags, as declared. -/
def MFABackupCode.fields (b : MFABackupCode) : List StructField :=
  [ ⟨"ID", "id_mfa_backup_code", GoValue.uuid b.ID⟩,
    ⟨"UserID", "user_id_mfa_backup_code", GoValue.uuid b.UserID⟩,
    ⟨"CodeHash", "-", GoValue.str b.CodeHash⟩,
    ⟨"IsUsed", "is_used_mfa_backup_code", GoValue.bool b.IsUsed⟩,
    ⟨"UsedAt", "used_at_mfa_backup_code,omitempty", ptrTime b.UsedAt⟩,
    ⟨"CreatedAt", "created_at_mfa_backup_code", GoValue.time b.CreatedAt⟩,
    ⟨"ExpiresAt", "expires_at_mfa_backup_code", GoValue.time b.ExpiresAt⟩ ]

/-- The JSON object of an `MFABackupCode`. -/
def MFABackupCode.toJSON (b : MFABackupCode) : List (String × JSONValue) :=
  marshalStruct b.fields

/-- The fields of `MFASession` with their `json` tags, as declared. -/
def MFASession.fields (s : MFASession) : List StructField :=
  [ ⟨"ID", "id_mfa_session", GoValue.uuid s.ID⟩,
    ⟨"UserID", "user_id_mfa_session", GoValue.uuid s.UserID⟩,
    ⟨"MethodType", "method_type_mfa_session", GoValue.str s.MethodType⟩,
    ⟨"CodeHash", "-", ptrStr s.CodeHash⟩,
    ⟨"IsVerified", "is_verified_mfa_session", GoValue.bool s.IsVerified⟩,
    ⟨"VerifiedAt", "verified_at_mfa_session,omitempty", ptrTime s.VerifiedAt⟩,
    ⟨"Attempts", "attempts_mfa_session", GoValue.int s.Attempts⟩,
    ⟨"MaxAttempts", "max_attempts_mfa_session", GoValue.int s.MaxAttempts⟩,
    ⟨"IPAddress", "ip_address_mfa_session", GoValue.str s.IPAddress⟩,
    ⟨"UserAgent", "user_agent_mfa_session", GoValue.str s.UserAgent⟩,
    ⟨"CreatedAt", "created_at_mfa_session", GoValue.time s.CreatedAt⟩,
    ⟨"ExpiresAt", "expires_at_mfa_session", GoValue.time s.ExpiresAt⟩ ]

/-- The JSON object of an `MFASession`. -/
def MFASession.toJSON (s : MFASession) : List (String × JSONValue) :=
  marshalStruct s.fields

/-! ## The verify operation of the MFA session -/

/-- The outcomes of a verify call named by the specification; `Rejected` is the call on a
session that is no longer active. -/
inductive VerifyOutcome where
  | Verified
  | SessionExpired
  | InvalidCode (remaining : Int)
  | AttemptsExceeded
  | Rejected
  deriving DecidableEq, Repr

/-- Modelled from the spec: the verify operation of the MFA session state machine, which
is no function of `mfa_entities.go` (the entity only has `IsExpired` and
`HasExceededAttempts`).  Following the specification: a call on a session whose
`expires_at` is passed fails with `SessionExpired` and consumes no attempt, whatever the
call; the operation is legal only from `Active`, so a verified or exhausted session is
rejected without a further increment; otherwise the attempt is counted, a code matching
the stored hash verifies the session and records `verified-at`, and a wrong code fails
with `AttemptsExceeded` once the counter has reached `max_attempts`, else with
`InvalidCode` and the attempts remaining.  `codeMatches` is the comparison of a code with
the stored hash, which belongs to the hashing backend. -/
def MFASession.Verify (codeMatches : String → Option String → Bool) (now : Time)
    (code : String) (s : MFASession) : VerifyOutcome × MFASession :=
  if (s.IsExpired now).1 then
    (VerifyOutcome.SessionExpired, s)
  else if s.IsVerified || s.HasExceededAttempts then
    (VerifyOutcome.Rejected, s)
  else
    let counted : MFASession := { s with Attempts := s.Attempts + 1 }
    if codeMatches code s.CodeHash then
      (VerifyOutcome.Verified, { counted with IsVerified := true, VerifiedAt := some now })
    else if counted.HasExceededAttempts then
      (VerifyOutcome.AttemptsExceeded, counted)
    else
      (VerifyOutcome.InvalidCode (counted.MaxAttempts - counted.Attempts), counted)

/-- A session issued at instant 100 and expiring at instant 400, with three attempts. -/
def issuedSession : MFASession :=
  { ID := 1
    UserID := 7
    MethodType := "email_otp"
    CodeHash := some "h(123456)"
    IsVerified := false
    VerifiedAt := none
    Attempts := 0
    MaxAttempts := 3
    IPAddress := "10.0.0.1"
    UserAgent := "curl"
    CreatedAt := 100
    ExpiresAt := 400 }

/-! ## Correctness of the matcher -/

namespace Regex

theorem not_matches_fail (s : List Char) : ¬ Matches fail s := by
  intro h
  cases h

theorem matches_eps_iff (s : List Char) : Matches eps s ↔ s = [] := by
  constructor
  · intro h
    cases h
    rfl
  · rintro rfl
    exact Matches.eps

theorem matches_cls_iff (p : Char → Bool) (s : List Char) :
    Matches (cls p) s ↔ ∃ c, s = [c] ∧ p c = true := by
  constructor
  · intro h
    cases h with
    | cls _ c hc => exact ⟨c, rfl, hc⟩
  · rintro ⟨c, rfl, hc⟩
    exact Matches.cls p c hc

theorem matches_alt_iff (r q : Regex) (s : List Char) :
    Matches (alt r q) s ↔ Matches r s ∨ Matches q s := by
  constructor
  · intro h
    cases h with
    | altL _ _ _ h1 => exact Or.inl h1
    | altR _ _ _ h1 => exact Or.inr h1
  · rintro (h | h)
    · exact Matches.altL _ _ _ h
    · exact Matches.altR _ _ _ h

theorem matches_cat_iff (r q : Regex) (s : List Char) :
    Matches (cat r q) s ↔ ∃ x y, s = x ++ y ∧ Matches r x ∧ Matches q y := by
  constructor
  · intro h
    cases h with
    | cat _ _ x y hx hy => exact ⟨x, y, rfl, hx, hy⟩
  · rintro ⟨x, y, rfl, hx, hy⟩
    exact Matches.cat _ _ _ _ hx hy

theorem star_cons_aux {e : Regex} {w : List Char} (h : Matches e w) :
    ∀ (r : Regex) (c : Char) (s : List Char), e = star r → w = c :: s →
      ∃ x y, s = x ++ y ∧ Matches r (c :: x) ∧ Matches (star r) y := by
  induction h with
  | eps => intro r c s h1; cases h1
  | cls p c hp => intro r c s h1; cases h1
  | altL r q x _ _ => intro r c s h1; cases h1
  | altR r q x _ _ => intro r c s h1; cases h1
  | cat r q x y _ _ _ _ => intro r c s h1; cases h1
  | starNil r => intro r c s _ h2; cases h2
  | starCons r x y hx hy _ ihy =>
    intro r1 c s h1 h2
    cases h1
    cases x with
    | nil => exact ihy r c s rfl (by simpa using h2)
    | cons a x1 =>
      simp only [List.cons_append, List.cons.injEq] at h2
      obtain ⟨rfl, rfl⟩ := h2
      exact ⟨x1, y, rfl, hx, hy⟩

theorem matches_star_cons_iff (r : Regex) (c : Char) (s : List Char) :
    Matches (star r) (c :: s) ↔
      ∃ x y, s = x ++ y ∧ Matches r (c :: x) ∧ Matches (star r) y := by
  constructor
  · intro h
    exact star_cons_aux h r c s rfl rfl
  · rintro ⟨x, y, rfl, hx, hy⟩
    exact Matches.starCons r (c :: x) y hx hy

theorem nullable_iff (r : Regex) : r.nullable = true ↔ Matches r [] := by
  induction r with
  | fail => simp [nullable, not_matches_fail]
  | eps => simp [nullable, matches_eps_iff]
  | cls p => simp [nullable, matches_cls_iff]
  | alt r q ihr ihq => simp [nullable, matches_alt_iff, ihr, ihq]
  | cat r q ihr ihq =>
    simp only [nullable, Bool.and_eq_true, ihr, ihq, matches_cat_iff]
    constructor
    · rintro ⟨h1, h2⟩
      exact ⟨[], [], rfl, h1, h2⟩
    · rintro ⟨x, y, h, h1, h2⟩
      have hx : x = [] := (List.append_eq_nil.mp h.symm).1
      have hy : y = [] := (List.append_eq_nil.mp h.symm).2
      subst hx
      subst hy
      exact ⟨h1, h2⟩
  | star r _ => simp [nullable, Matches.starNil]

theorem deriv_iff (r : Regex) (c : Char) :
    ∀ s : List Char, Matches (r.deriv c) s ↔ Matches r (c :: s) := by
  induction r with
  | fail => intro s; simp [deriv, not_matches_fail]
  | eps => intro s; simp [deriv, not_matches_fail, matches_eps_iff]
  | cls p =>
    intro s
    rw [matches_cls_iff]
    by_cases hp : p c = true
    · have hd : deriv (cls p) c = eps := by simp [deriv, hp]
      rw [hd, matches_eps_iff]
      constructor
      · rintro rfl
        exact ⟨c, rfl, hp⟩
      · rintro ⟨a, h1, _⟩
        simp only [List.cons.injEq] at h1
        exact h1.2
    · have hd : deriv (cls p) c = fail := by simp [deriv, hp]
      rw [hd]
      constructor
      · intro h
        exact absurd h (not_matches_fail s)
      · rintro ⟨a, h1, h2⟩
        simp only [List.cons.injEq] at h1
        exact absurd (h1.1 ▸ h2) hp
  | alt r q ihr ihq => intro s; simp [deriv, matches_alt_iff, ihr, ihq]
  | cat r q ihr ihq =>
    intro s
    have key : Matches (cat r q) (c :: s) ↔
        (∃ x y, s = x ++ y ∧ Matches r (c :: x) ∧ Matches q y)
          ∨ (Matches r [] ∧ Matches q (c :: s)) := by
      rw [matches_cat_iff]
      constructor
      · rintro ⟨x, y, h, hx, hy⟩
        cases x with
        | nil =>
          simp only [List.nil_append] at h
          subst h
          exact Or.inr ⟨hx, hy⟩
        | cons a x1 =>
          simp only [List.cons_append, List.cons.injEq] at h
          obtain ⟨rfl, rfl⟩ := h
          exact Or.inl ⟨x1, y, rfl, hx, hy⟩
      · rintro (⟨x, y, rfl, hx, hy⟩ | ⟨hx, hy⟩)
        · exact ⟨c :: x, y, rfl, hx, hy⟩
        · exact ⟨[], c :: s, rfl, hx, hy⟩
    rw [key]
    by_cases hn : r.nullable = true
    · have hr : Matches r [] := (nullable_iff r).mp hn
      have hd : deriv (cat r q) c = alt (cat (r.deriv c) q) (q.deriv c) := by
        simp [deriv, hn]
      rw [hd, matches_alt_iff, matches_cat_iff]
      simp only [ihr, ihq, hr, true_and]
    · have hr : ¬ Matches r [] := fun h => hn ((nullable_iff r).mpr h)
      have hd : deriv (cat r q) c = cat (r.deriv c) q := by
        simp [deriv, hn]
      rw [hd, matches_cat_iff]
      simp only [ihr, hr, false_and, or_false]
  | star r ihr =>
    intro s
    simp only [deriv, matches_cat_iff, ihr, matches_star_cons_iff]

theorem rmatch_iff (r : Regex) (s : List Char) : r.rmatch s = true ↔ Matches r s := by
  induction s generalizing r with
  | nil => simpa [rmatch] using nullable_iff r
  | cons c cs ih => simp only [rmatch, ih, deriv_iff]

theorem matches_star_cls_iff (p : Char → Bool) (s : List Char) :
    Matches (star (cls p)) s ↔ ∀ c ∈ s, p c = true := by
  induction s with
  | nil => simp [Matches.starNil]
  | cons a s ih =>
    rw [matches_star_cons_iff]
    constructor
    · rintro ⟨x, y, rfl, hx, hy⟩
      rw [matches_cls_iff] at hx
      obtain ⟨b, hb, hpb⟩ := hx
      simp only [List.cons.injEq] at hb
      obtain ⟨rfl, rfl⟩ := hb
      intro c hc
      simp only [List.nil_append, List.mem_cons] at hc
      rcases hc with rfl | hc
      · exact hpb
      · exact (ih.mp (by simpa using hy)) c hc
    · intro h
      refine ⟨[], s, rfl, Matches.cls p a (h a (List.mem_cons_self a s)), ?_⟩
      exact ih.mpr (fun c hc => h c (List.mem_cons_of_mem a hc))

theorem matches_cls_cat_iff (p : Char → Bool) (q : Regex) (s : List Char) :
    Matches (cat (cls p) q) s ↔ ∃ c t, s = c :: t ∧ p c = true ∧ Matches q t := by
  rw [matches_cat_iff]
  constructor
  · rintro ⟨x, y, rfl, hx, hy⟩
    rw [matches_cls_iff] at hx
    obtain ⟨c, rfl, hc⟩ := hx
    exact ⟨c, y, rfl, hc, hy⟩
  · rintro ⟨c, t, rfl, hc, ht⟩
    exact ⟨[c], t, rfl, Matches.cls p c hc, ht⟩

theorem matches_atLeast_cls_iff (p : Char → Bool) (n : Nat) (s : List Char) :
    Matches (atLeast n (cls p)) s ↔ n ≤ s.length ∧ ∀ c ∈ s, p c = true := by
  induction n generalizing s with
  | zero => simp [atLeast, matches_star_cls_iff]
  | succ n ih =>
    simp only [atLeast, matches_cls_cat_iff, ih]
    constructor
    · rintro ⟨c, t, rfl, hc, hlen, hall⟩
      refine ⟨by simpa using hlen, ?_⟩
      intro a ha
      simp only [List.mem_cons] at ha
      rcases ha with rfl | ha
      · exact hc
      · exact hall a ha
    · rintro ⟨hlen, hall⟩
      cases s with
      | nil => simp at hlen
      | cons c t =>
        exact ⟨c, t, rfl, hall c (List.mem_cons_self c t), by simpa using hlen,
          fun a ha => hall a (List.mem_cons_of_mem c ha)⟩

theorem matches_plus_cls_iff (p : Char → Bool) (s : List Char) :
    Matches (plus (cls p)) s ↔ 1 ≤ s.length ∧ ∀ c ∈ s, p c = true :=
  matches_atLeast_cls_iff p 1 s

theorem matches_star_anyRune (s : List Char) : Matches (star anyRune) s :=
  (matches_star_cls_iff _ s).mpr (fun _ _ => rfl)

theorem matches_search_cls_iff (p : Char → Bool) (s : List Char) :
    Matches (search (cls p)) s ↔ ∃ c ∈ s, p c = true := by
  simp only [search, matches_cat_iff, matches_cls_iff]
  constructor
  · rintro ⟨x, y, rfl, _, u, v, rfl, ⟨c, rfl, hc⟩, _⟩
    exact ⟨c, by simp, hc⟩
  · rintro ⟨c, hmem, hc⟩
    obtain ⟨x, v, rfl⟩ := List.append_of_mem hmem
    exact ⟨x, c :: v, rfl, matches_star_anyRune x, [c], v, rfl, ⟨c, rfl, hc⟩,
      matches_star_anyRune v⟩

end Regex

theorem matchString_search_iff (p : Char → Bool) (s : String) :
    MatchString (Regex.search (Regex.cls p)) s = true ↔ ∃ c ∈ s.data, p c = true := by
  rw [MatchString, Regex.rmatch_iff, Regex.matches_search_cls_iff]

theorem matchString_plus_iff (p : Char → Bool) (s : String) :
    MatchString (Regex.plus (Regex.cls p)) s = true ↔
      1 ≤ s.data.length ∧ ∀ c ∈ s.data, p c = true := by
  rw [MatchString, Regex.rmatch_iff, Regex.matches_plus_cls_iff]

/-! ## Character classes -/

theorem inRange_iff (lo hi c : Char) : inRange lo hi c = true ↔ lo ≤ c ∧ c ≤ hi := by
  simp only [inRange, Bool.and_eq_true, decide_eq_true_eq]
  exact Iff.rfl

theorem isLowerAZ_iff (c : Char) : isLowerAZ c = true ↔ 'a' ≤ c ∧ c ≤ 'z' :=
  inRange_iff 'a' 'z' c

theorem isUpperAZ_iff (c : Char) : isUpperAZ c = true ↔ 'A' ≤ c ∧ c ≤ 'Z' :=
  inRange_iff 'A' 'Z' c

theorem isDigit09_iff (c : Char) : isDigit09 c = true ↔ '0' ≤ c ∧ c ≤ '9' :=
  inRange_iff '0' '9' c

theorem isPasswordSpecial_iff (c : Char) :
    isPasswordSpecial c = true ↔ c ∈ ['!', '@', '#', '$', '%', '^', '&', '*'] := by
  simp [isPasswordSpecial, or_assoc]

/-! ## Passwords -/

/-- **C1.** `ValidatePassword p` returns no error exactly when `len p` (bytes) is between
10 and 128 and `p` contains a lowercase letter a-z, an uppercase letter A-Z, a digit 0-9
and one of the characters `!@#$%^&*`; in every other case it returns a `DomainError`. -/
theorem validatePassword_ok_iff (p : String) :
    (ValidatePassword p = none ↔
      (10 ≤ len p ∧ len p ≤ 128)
        ∧ (∃ c ∈ p.data, 'a' ≤ c ∧ c ≤ 'z')
        ∧ (∃ c ∈ p.data, 'A' ≤ c ∧ c ≤ 'Z')
        ∧ (∃ c ∈ p.data, '0' ≤ c ∧ c ≤ '9')
        ∧ (∃ c ∈ p.data, c ∈ ['!', '@', '#', '$', '%', '^', '&', '*']))
    ∧ (ValidatePassword p ≠ none ↔ ∃ e : DomainError, ValidatePassword p = some e) := by
  refine ⟨?_, Option.ne_none_iff_exists'⟩
  simp only [← isLowerAZ_iff, ← isUpperAZ_iff, ← isDigit09_iff, ← isPasswordSpecial_iff,
    ← matchString_search_iff]
  unfold ValidatePassword rePasswordLower rePasswordUpper rePasswordDigit rePasswordSpecial
  by_cases h1 : len p < 10
  · simp only [h1, if_true]
    constructor
    · intro h
      cases h
    · intro h
      omega
  · by_cases h2 : len p > 128
    · simp only [h1, h2, if_true, if_false]
      constructor
      · intro h
        cases h
      · intro h
        omega
    · have h3 : 10 ≤ len p ∧ len p ≤ 128 := by omega
      simp only [h1, h2, if_false, h3, true_and, and_self]
      cases MatchString (Regex.search (Regex.cls isLowerAZ)) p <;>
      cases MatchString (Regex.search (Regex.cls isUpperAZ)) p <;>
      cases MatchString (Regex.search (Regex.cls isDigit09)) p <;>
      cases MatchString (Regex.search (Regex.cls isPasswordSpecial)) p <;>
      simp

/-! ## The `User` aggregate -/

/-- **C2** (defect of the code). The `Password` field is tagged `json:"_"`, not
`json:"-"`, so it is emitted under the key `_`: every user's JSON object carries the
password, and two users that differ only in `Password` serialise differently. -/
theorem user_toJSON_carries_password :
    (∀ u : User, ("_", JSONValue.str u.Password) ∈ u.toJSON)
      ∧ (storedAdmin "Secreta123!").toJSON ≠ (storedAdmin "Distinta456#").toJSON
      ∧ ("_", JSONValue.str "Secreta123!") ∈ (storedAdmin "Secreta123!").toJSON := by
  have hfield : ∀ v : GoValue,
      marshalField ⟨"Password", "_", v⟩ = some ("_", encodeValue v) := fun _ => rfl
  refine ⟨?_, by decide, by decide⟩
  intro u
  unfold User.toJSON marshalStruct
  rw [List.mem_filterMap]
  refine ⟨⟨"Password", "_", GoValue.str u.Password⟩, ?_, hfield _⟩
  simp [User.fields]

/-- **C4.** `NewUser` fails exactly when `validateUserData` fails on the same arguments,
with that very error; otherwise it returns a user holding the arguments unchanged, active,
with status `active`, e-mail not verified, `CreatedAt = UpdatedAt`, and the seven consent
fields nil. -/
theorem newUser_spec (caseTable : Char → Char) (id : UUID) (now : Time)
    (firstName lastName email documentNumber documentType : String) (role : UserRole) :
    (∀ e : DomainError,
        NewUser caseTable id now firstName lastName email documentNumber documentType role
            = Except.error e
          ↔ validateUserData caseTable firstName lastName email documentNumber role = some e)
      ∧ ((∃ u : User,
            NewUser caseTable id now firstName lastName email documentNumber documentType role
              = Except.ok u)
          ↔ validateUserData caseTable firstName lastName email documentNumber role = none)
      ∧ (∀ u : User,
          NewUser caseTable id now firstName lastName email documentNumber documentType role
              = Except.ok u →
            u.FirstName = firstName ∧ u.LastName = lastName ∧ u.Email = email
              ∧ u.DocumentNumber = documentNumber ∧ u.DocumentType = documentType
              ∧ u.Role = role
              ∧ u.IsActive = true ∧ u.Status = "active" ∧ u.EmailVerified = false
              ∧ u.CreatedAt = u.UpdatedAt
              ∧ u.AcceptedPrivacyPolicyAt = none ∧ u.AcceptedTermsAt = none
              ∧ u.AcceptedDataTreatmentAt = none
              ∧ u.PrivacyPolicyVersion = none ∧ u.TermsVersion = none
              ∧ u.DataTreatmentVersion = none ∧ u.AcceptanceIPAddress = none) := by
  unfold NewUser
  cases hv : validateUserData caseTable firstName lastName email documentNumber role with
  | some err =>
    refine ⟨?_, ?_, ?_⟩
    · intro e
      simp
    · simp
    · intro u h
      cases h
  | none =>
    refine ⟨?_, ?_, ?_⟩
    · intro e
      simp
    · simp
    · intro u h
      cases h
      simp

/-- Witness for **C4**: a valid registration is built with its fields unchanged. -/
theorem newUser_spec_witness :
    ∃ u : User,
      NewUser id 7 5 "Ana" "Diaz" "ana@sena.edu.co" "1234567" "CC" "admin" = Except.ok u
        ∧ u.FirstName = "Ana" ∧ u.IsActive = true ∧ u.CreatedAt = u.UpdatedAt
        ∧ u.AcceptedTermsAt = none :=
  match h : NewUser id 7 5 "Ana" "Diaz" "ana@sena.edu.co" "1234567" "CC" "admin" with
  | Except.ok u =>
    have hs := (newUser_spec id 7 5 "Ana" "Diaz" "ana@sena.edu.co" "1234567" "CC" "admin").2.2
      u h
    ⟨u, rfl, hs.1, hs.2.2.2.2.2.2.1, hs.2.2.2.2.2.2.2.2.2.1, hs.2.2.2.2.2.2.2.2.2.2.2.1⟩
  | Except.error e => by
    have hv : validateUserData id "Ana" "Diaz" "ana@sena.edu.co" "1234567" "admin" = none := by
      decide
    have := ((newUser_spec id 7 5 "Ana" "Diaz" "ana@sena.edu.co" "1234567" "CC" "admin").1
      e).mp h
    rw [hv] at this
    cases this

/-- **C5.** `NeedsPolicyUpdate` is true whenever one of the three consent timestamps is
nil, whatever the versions; with the three timestamps and the three stored versions set,
it is true exactly when some stored version differs from the current one. -/
theorem needsPolicyUpdate_spec (u : User) (cp ct cd : String) :
    ((u.AcceptedPrivacyPolicyAt = none ∨ u.AcceptedTermsAt = none
          ∨ u.AcceptedDataTreatmentAt = none) →
        u.NeedsPolicyUpdate cp ct cd = true)
      ∧ (∀ (t1 t2 t3 : Time) (vp vt vd : String),
          u.AcceptedPrivacyPolicyAt = some t1 → u.AcceptedTermsAt = some t2 →
          u.AcceptedDataTreatmentAt = some t3 →
          u.PrivacyPolicyVersion = some vp → u.TermsVersion = some vt →
          u.DataTreatmentVersion = some vd →
            (u.NeedsPolicyUpdate cp ct cd = true ↔ vp ≠ cp ∨ vt ≠ ct ∨ vd ≠ cd)) := by
  constructor
  · intro h
    unfold User.NeedsPolicyUpdate User.HasAcceptedAllPolicies
    rcases h with h | h | h <;> simp [h]
  · intro t1 t2 t3 vp vt vd h1 h2 h3 h4 h5 h6
    unfold User.NeedsPolicyUpdate User.HasAcceptedAllPolicies
    simp [h1, h2, h3, h4, h5, h6, User.versionDiffers, or_assoc]

/-- Witness for **C5**: with all consent recorded, one differing version out of three
already demands an update, and none is demanded when the three match. -/
theorem needsPolicyUpdate_spec_witness :
    ((storedAdmin "x").AcceptLegalPolicies 20 "v1" "v1" "v1" "10.0.0.1").NeedsPolicyUpdate
        "v1" "v2" "v1" = true
      ∧ ((storedAdmin "x").AcceptLegalPolicies 20 "v1" "v1" "v1" "10.0.0.1").NeedsPolicyUpdate
        "v1" "v1" "v1" = false
      ∧ (storedAdmin "x").NeedsPolicyUpdate "v1" "v1" "v1" = true :=
  ⟨((needsPolicyUpdate_spec
        ((storedAdmin "x").AcceptLegalPolicies 20 "v1" "v1" "v1" "10.0.0.1") "v1" "v2" "v1").2
      20 20 20 "v1" "v1" "v1" rfl rfl rfl rfl rfl rfl).mpr (by decide),
    by decide,
    (needsPolicyUpdate_spec (storedAdmin "x") "v1" "v1" "v1").1 (Or.inl rfl)⟩

/-- **C6.** `CanAccessSystem` holds exactly when the user is active and the three consent
timestamps are set; so a user fresh from `NewUser` cannot access the system, and no user
can after `Deactivate`. -/
theorem canAccessSystem_spec (u : User) (now : Time) :
    (u.CanAccessSystem = true ↔
        u.IsActive = true ∧ u.AcceptedPrivacyPolicyAt ≠ none ∧ u.AcceptedTermsAt ≠ none
          ∧ u.AcceptedDataTreatmentAt ≠ none)
      ∧ (∀ (caseTable : Char → Char) (id : UUID) (t0 : Time)
            (firstName lastName email documentNumber documentType : String) (role : UserRole),
          NewUser caseTable id t0 firstName lastName email documentNumber documentType role
              = Except.ok u →
            u.CanAccessSystem = false)
      ∧ (u.Deactivate now).CanAccessSystem = false := by
  refine ⟨?_, ?_, ?_⟩
  · simp [User.CanAccessSystem, User.HasAcceptedAllPolicies, Option.isSome_iff_ne_none,
      and_assoc]
  · intro caseTable id t0 firstName lastName email documentNumber documentType role h
    unfold NewUser at h
    cases hv : validateUserData caseTable firstName lastName email documentNumber role with
    | some err =>
      rw [hv] at h
      cases h
    | none =>
      rw [hv] at h
      cases h
      rfl
  · simp [User.CanAccessSystem, User.Deactivate]

/-- Witness for **C6**: a freshly built user is denied access, a consenting active user
is granted it, and loses it on deactivation. -/
theorem canAccessSystem_spec_witness :
    (∀ u : User,
        NewUser id 7 5 "Ana" "Diaz" "ana@sena.edu.co" "1234567" "CC" "admin" = Except.ok u →
          u.CanAccessSystem = false)
      ∧ ((storedAdmin "x").AcceptLegalPolicies 20 "v1" "v1" "v1" "10.0.0.1").CanAccessSystem
          = true
      ∧ (((storedAdmin "x").AcceptLegalPolicies 20 "v1" "v1" "v1" "10.0.0.1").Deactivate
          30).CanAccessSystem = false :=
  ⟨fun u h => (canAccessSystem_spec u 0).2.1 id 7 5 "Ana" "Diaz" "ana@sena.edu.co" "1234567"
      "CC" "admin" h,
    by decide,
    (canAccessSystem_spec
      ((storedAdmin "x").AcceptLegalPolicies 20 "v1" "v1" "v1" "10.0.0.1") 30).2.2⟩

/-! ## Roles -/

/-- **C10.** `validateRole r`, and `ValidateUserRole r` which returns the same result,
succeeds exactly when `r` is one of aprendiz, instructor, admin, coordinador, directivo;
every other string fails with a `DomainError`, the empty string and other spellings of
the case included. -/
theorem validateRole_ok_iff (r : UserRole) :
    (validateRole r = none ↔
        r = "aprendiz" ∨ r = "instructor" ∨ r = "admin" ∨ r = "coordinador"
          ∨ r = "directivo")
      ∧ ValidateUserRole r = validateRole r
      ∧ (validateRole r ≠ none ↔ ∃ e : DomainError, validateRole r = some e)
      ∧ validateRole "" ≠ none ∧ validateRole "Admin" ≠ none
      ∧ validateRole "APRENDIZ" ≠ none := by
  refine ⟨?_, rfl, Option.ne_none_iff_exists', by decide, by decide, by decide⟩
  unfold validateRole RoleAprendiz RoleInstructor RoleAdmin RoleCoordinador RoleDirectivo
  split <;> simp_all

/-! ## Byte length against rune count -/

theorem runeLen_pos (c : Char) : 1 ≤ runeLen c := by
  unfold runeLen
  split_ifs <;> omega

theorem runeLen_ascii (c : Char) (h : c.toNat < 128) : runeLen c = 1 := by
  unfold runeLen
  simp [h]

theorem length_le_byteLen (l : List Char) : l.length ≤ byteLen l := by
  induction l with
  | nil => simp [byteLen]
  | cons c cs ih =>
    have := runeLen_pos c
    simp only [byteLen, List.length_cons]
    omega

theorem byteLen_eq_length_of_ascii (l : List Char) (h : ∀ c ∈ l, c.toNat < 128) :
    byteLen l = l.length := by
  induction l with
  | nil => simp [byteLen]
  | cons c cs ih =>
    have h1 := runeLen_ascii c (h c (List.mem_cons_self c cs))
    have h2 := ih (fun a ha => h a (List.mem_cons_of_mem c ha))
    simp only [byteLen, List.length_cons]
    omega

theorem inRange_toNat (lo hi c : Char) (h : inRange lo hi c = true) :
    lo.toNat ≤ c.toNat ∧ c.toNat ≤ hi.toNat := by
  simpa [inRange] using h

theorem isLowerAZ_ascii (c : Char) (h : isLowerAZ c = true) : c.toNat < 128 := by
  have h1 := (inRange_toNat _ _ _ h).2
  have h2 : 'z'.toNat = 122 := rfl
  omega

theorem isUpperAZ_ascii (c : Char) (h : isUpperAZ c = true) : c.toNat < 128 := by
  have h1 := (inRange_toNat _ _ _ h).2
  have h2 : 'Z'.toNat = 90 := rfl
  omega

theorem isDigit09_ascii (c : Char) (h : isDigit09 c = true) : c.toNat < 128 := by
  have h1 := (inRange_toNat _ _ _ h).2
  have h2 : '9'.toNat = 57 := rfl
  omega

theorem isDocumentRune_ascii (c : Char) (h : isDocumentRune c = true) : c.toNat < 128 := by
  simp only [isDocumentRune, Bool.or_eq_true, beq_iff_eq] at h
  rcases h with ((h | h) | h) | h
  · exact isLowerAZ_ascii c h
  · exact isUpperAZ_ascii c h
  · exact isDigit09_ascii c h
  · subst h
    decide

theorem isEmailLocalRune_ascii (c : Char) (h : isEmailLocalRune c = true) :
    c.toNat < 128 := by
  simp only [isEmailLocalRune, Bool.or_eq_true, beq_iff_eq] at h
  rcases h with (((((h | h) | h) | h) | h) | h) | h
  · exact isLowerAZ_ascii c h
  · exact isDigit09_ascii c h
  all_goals subst h; decide

theorem isEmailDomainRune_ascii (c : Char) (h : isEmailDomainRune c = true) :
    c.toNat < 128 := by
  simp only [isEmailDomainRune, Bool.or_eq_true, beq_iff_eq] at h
  rcases h with ((h | h) | h) | h
  · exact isLowerAZ_ascii c h
  · exact isDigit09_ascii c h
  all_goals subst h; decide

theorem isDocumentRune_iff (c : Char) :
    isDocumentRune c = true ↔
      ('a' ≤ c ∧ c ≤ 'z') ∨ ('A' ≤ c ∧ c ≤ 'Z') ∨ ('0' ≤ c ∧ c ≤ '9') ∨ c = '-' := by
  simp [isDocumentRune, isLowerAZ_iff, isUpperAZ_iff, isDigit09_iff, or_assoc]

theorem isEmailLocalRune_iff (c : Char) :
    isEmailLocalRune c = true ↔
      ('a' ≤ c ∧ c ≤ 'z') ∨ ('0' ≤ c ∧ c ≤ '9') ∨ c ∈ ['.', '_', '%', '+', '-'] := by
  simp [isEmailLocalRune, isLowerAZ_iff, isDigit09_iff, or_assoc]

theorem isEmailDomainRune_iff (c : Char) :
    isEmailDomainRune c = true ↔
      ('a' ≤ c ∧ c ≤ 'z') ∨ ('0' ≤ c ∧ c ≤ '9') ∨ c ∈ ['.', '-'] := by
  simp [isEmailDomainRune, isLowerAZ_iff, isDigit09_iff, or_assoc]

/-! ## Document numbers -/

/-- **C9.** `validateDocumentNumber d` succeeds exactly when `d`, trimmed of surrounding
white space, has between 7 and 20 characters, each an ASCII letter, an ASCII digit or a
hyphen. -/
theorem validateDocumentNumber_ok_iff (d : String) :
    validateDocumentNumber d = none ↔
      (7 ≤ (TrimSpace d).length ∧ (TrimSpace d).length ≤ 20)
        ∧ ∀ c ∈ (TrimSpace d).data,
            ('a' ≤ c ∧ c ≤ 'z') ∨ ('A' ≤ c ∧ c ≤ 'Z') ∨ ('0' ≤ c ∧ c ≤ '9') ∨ c = '-' := by
  simp only [← isDocumentRune_iff]
  unfold validateDocumentNumber reDocumentNumber
  simp only [String.length]
  generalize TrimSpace d = t
  have hlen : (∀ c ∈ t.data, isDocumentRune c = true) → len t = t.data.length :=
    fun h => byteLen_eq_length_of_ascii t.data (fun c hc => isDocumentRune_ascii c (h c hc))
  by_cases hm : MatchString (Regex.plus (Regex.cls isDocumentRune)) t = true
  · have hall := ((matchString_plus_iff _ _).mp hm).2
    have hl := hlen hall
    by_cases h1 : len t < 7
    · simp only [h1, if_true]
      constructor
      · intro h
        cases h
      · intro h
        omega
    · by_cases h2 : len t > 20
      · simp only [h1, h2, if_true, if_false]
        constructor
        · intro h
          cases h
        · intro h
          omega
      · simp only [h1, h2, hm, if_false, Bool.not_true, Bool.false_eq_true, true_iff]
        exact ⟨by omega, hall⟩
  · have hno : ¬ ((7 ≤ t.data.length ∧ t.data.length ≤ 20)
        ∧ ∀ c ∈ t.data, isDocumentRune c = true) := by
      rintro ⟨⟨h7, _⟩, hall⟩
      exact hm ((matchString_plus_iff _ _).mpr ⟨by omega, hall⟩)
    simp only [Bool.not_eq_true] at hm
    simp only [hm, hno, iff_false, Bool.not_false, if_true]
    split_ifs <;> simp

/-! ## E-mail addresses -/

theorem emailRegex_matches_iff (s : List Char) :
    Regex.Matches emailRegex s ↔
      ∃ loc dom tld : List Char, s = loc ++ '@' :: (dom ++ '.' :: tld)
        ∧ (1 ≤ loc.length ∧ ∀ c ∈ loc, isEmailLocalRune c = true)
        ∧ (1 ≤ dom.length ∧ ∀ c ∈ dom, isEmailDomainRune c = true)
        ∧ (2 ≤ tld.length ∧ ∀ c ∈ tld, isLowerAZ c = true) := by
  unfold emailRegex Regex.chr
  simp only [Regex.matches_cat_iff (Regex.plus _), Regex.matches_cls_cat_iff,
    Regex.matches_plus_cls_iff, Regex.matches_atLeast_cls_iff, beq_iff_eq]
  constructor
  · rintro ⟨loc, y, rfl, hloc, c, t, rfl, rfl, dom, y2, rfl, hdom, c2, tld, rfl, rfl, htld⟩
    exact ⟨loc, dom, tld, rfl, hloc, hdom, htld⟩
  · rintro ⟨loc, dom, tld, rfl, hloc, hdom, htld⟩
    exact ⟨loc, _, rfl, hloc, '@', _, rfl, rfl, dom, _, rfl, hdom, '.', tld, rfl, rfl, htld⟩

/-- **C3.** `validateEmail e` succeeds exactly when `e`, lower-cased and trimmed, is
non-empty, at most 100 long, and of the shape `local@domain.tld` with `local` one or more
of `[a-z0-9._%+-]`, `domain` one or more of `[a-z0-9.-]` and `tld` two or more letters
a-z; `a@b.co` succeeds, `invalid` and `a@b` fail. -/
theorem validateEmail_ok_iff (caseTable : Char → Char) (e : String) :
    (validateEmail caseTable e = none ↔
        (TrimSpace (ToLower caseTable e)).data ≠ []
          ∧ (TrimSpace (ToLower caseTable e)).length ≤ 100
          ∧ ∃ loc dom tld : List Char,
              (TrimSpace (ToLower caseTable e)).data = loc ++ '@' :: (dom ++ '.' :: tld)
              ∧ (1 ≤ loc.length ∧ ∀ c ∈ loc,
                  ('a' ≤ c ∧ c ≤ 'z') ∨ ('0' ≤ c ∧ c ≤ '9') ∨ c ∈ ['.', '_', '%', '+', '-'])
              ∧ (1 ≤ dom.length ∧ ∀ c ∈ dom,
                  ('a' ≤ c ∧ c ≤ 'z') ∨ ('0' ≤ c ∧ c ≤ '9') ∨ c ∈ ['.', '-'])
              ∧ (2 ≤ tld.length ∧ ∀ c ∈ tld, 'a' ≤ c ∧ c ≤ 'z'))
      ∧ validateEmail caseTable "a@b.co" = none
      ∧ validateEmail caseTable "invalid" ≠ none
      ∧ validateEmail caseTable "a@b" ≠ none := by
  have hinv : validateEmail caseTable "invalid"
      = some (NewDomainError "El email no tiene un formato válido") := rfl
  have hab : validateEmail caseTable "a@b"
      = some (NewDomainError "El email no tiene un formato válido") := rfl
  refine ⟨?_, rfl, by rw [hinv]; simp, by rw [hab]; simp⟩
  simp only [← isEmailLocalRune_iff, ← isEmailDomainRune_iff]
  simp only [← isLowerAZ_iff]
  unfold validateEmail
  simp only [String.length]
  generalize TrimSpace (ToLower caseTable e) = t
  rw [← emailRegex_matches_iff, ← Regex.rmatch_iff]
  by_cases hm : MatchString emailRegex t = true
  · have hm1 : emailRegex.rmatch t.data = true := hm
    obtain ⟨loc, dom, tld, hs, hloc, hdom, htld⟩ :=
      (emailRegex_matches_iff t.data).mp ((Regex.rmatch_iff _ _).mp hm1)
    have hascii : ∀ c ∈ t.data, c.toNat < 128 := by
      intro c hc
      rw [hs] at hc
      simp only [List.mem_append, List.mem_cons] at hc
      rcases hc with hc | rfl | hc | rfl | hc
      · exact isEmailLocalRune_ascii c (hloc.2 c hc)
      · decide
      · exact isEmailDomainRune_ascii c (hdom.2 c hc)
      · decide
      · exact isLowerAZ_ascii c (htld.2 c hc)
    have hl : len t = t.data.length := byteLen_eq_length_of_ascii t.data hascii
    have hne : t.data ≠ [] := by
      rw [hs]
      simp
    have hpos : 0 < t.data.length := List.length_pos.mpr hne
    by_cases h1 : len t = 0
    · omega
    · by_cases h2 : len t > 100
      · simp only [h1, h2, if_true, if_false]
        constructor
        · intro h
          cases h
        · intro h
          omega
      · simp only [h1, h2, hm, hm1, if_false, Bool.not_true, Bool.false_eq_true, true_iff]
        exact ⟨hne, by omega, trivial⟩
  · have hm1 : ¬ emailRegex.rmatch t.data = true := hm
    simp only [Bool.not_eq_true] at hm
    simp only [hm, hm1, and_false, iff_false, Bool.not_false, if_true]
    split_ifs <;> simp

/-! ## Names -/

theorem isNameRune_iff (c : Char) :
    isNameRune c = true ↔
      ('a' ≤ c ∧ c ≤ 'z') ∨ ('A' ≤ c ∧ c ≤ 'Z')
        ∨ c ∈ ['á', 'é', 'í', 'ó', 'ú', 'Á', 'É', 'Í', 'Ó', 'Ú', 'ñ', 'Ñ']
        ∨ c ∈ ['\t', '\n', Char.ofNat 0x0C, '\r', ' '] := by
  simp [isNameRune, isPerlSpace, isLowerAZ_iff, isUpperAZ_iff, or_assoc]

theorem validateFirstName_ok_iff (n : String) :
    validateFirstName n = none ↔
      2 ≤ len (TrimSpace n) ∧ len (TrimSpace n) ≤ 100
        ∧ MatchString reName (TrimSpace n) = true := by
  unfold validateFirstName
  simp only []
  cases MatchString reName (TrimSpace n) <;> split_ifs <;> simp_all

theorem validateLastName_ok_iff (n : String) :
    validateLastName n = none ↔
      2 ≤ len (TrimSpace n) ∧ len (TrimSpace n) ≤ 100
        ∧ MatchString reName (TrimSpace n) = true := by
  unfold validateLastName
  simp only []
  cases MatchString reName (TrimSpace n) <;> split_ifs <;> simp_all

/-- The length checks of the name validators count bytes: the one-character name `ñ`
(two bytes) passes the lower bound of 2. -/
theorem validateName_accepts_one_rune :
    validateFirstName "ñ" = none ∧ validateLastName "ñ" = none
      ∧ (TrimSpace "ñ").length = 1 := by
  decide

/-- **C7** (defect of the code). A name of 51 letters `ñ` meets the claim's condition
(51 characters after trimming, all of them `ñ`), yet both validators reject it as longer
than 100 characters: the bound is checked on `len`, the byte count, which is 102. -/
theorem validateName_rejects_51_runes :
    (TrimSpace ⟨List.replicate 51 'ñ'⟩).length = 51
      ∧ (∀ c ∈ (TrimSpace ⟨List.replicate 51 'ñ'⟩).data, c = 'ñ')
      ∧ len (TrimSpace ⟨List.replicate 51 'ñ'⟩) = 102
      ∧ validateFirstName ⟨List.replicate 51 'ñ'⟩
          = some (NewDomainError "El nombre no debe exceder los 100 caracteres")
      ∧ validateLastName ⟨List.replicate 51 'ñ'⟩
          = some (NewDomainError "El apellido no debe exceder los 100 caracteres") := by
  decide

/-- **C8** (defect of the code). `Ana<TAB>Luz` is accepted as a first and as a last name,
although the tab is neither a letter nor a space: the class of the pattern ends in `\s`,
against the code's own comment and message, which allow letters, spaces and accents only.
The one-character name `ñ` is accepted as well, because the minimum of 2 is checked on
`len`, the byte count. -/
theorem validateName_accepts_tab :
    validateFirstName "Ana\tLuz" = none ∧ validateLastName "Ana\tLuz" = none
      ∧ ¬ (∀ c ∈ (TrimSpace "Ana\tLuz").data,
            ('a' ≤ c ∧ c ≤ 'z') ∨ ('A' ≤ c ∧ c ≤ 'Z')
              ∨ c ∈ ['á', 'é', 'í', 'ó', 'ú', 'Á', 'É', 'Í', 'Ó', 'Ú', 'ñ', 'Ñ']
              ∨ c = ' ')
      ∧ validateFirstName "ñ" = none ∧ validateLastName "ñ" = none
      ∧ ¬ (2 ≤ (TrimSpace "ñ").length) := by
  decide

/-- What the name validators accept as the code stands: a name accepted by
`validateFirstName` or by `validateLastName` has, after trimming, at most 100 characters,
each a letter (a-z, A-Z, accented vowel, ñ/Ñ) or a rune of the class `\s` (tab, line
feed, form feed, carriage return, space); a name whose trimmed form holds any other rune
is rejected by both with a `DomainError`. -/
theorem validateName_accepted_shape (n : String) :
    ((validateFirstName n = none ∨ validateLastName n = none) →
        (TrimSpace n).length ≤ 100
          ∧ ∀ c ∈ (TrimSpace n).data,
              ('a' ≤ c ∧ c ≤ 'z') ∨ ('A' ≤ c ∧ c ≤ 'Z')
                ∨ c ∈ ['á', 'é', 'í', 'ó', 'ú', 'Á', 'É', 'Í', 'Ó', 'Ú', 'ñ', 'Ñ']
                ∨ c ∈ ['\t', '\n', Char.ofNat 0x0C, '\r', ' '])
      ∧ ((∃ c ∈ (TrimSpace n).data,
            ¬ (('a' ≤ c ∧ c ≤ 'z') ∨ ('A' ≤ c ∧ c ≤ 'Z')
                ∨ c ∈ ['á', 'é', 'í', 'ó', 'ú', 'Á', 'É', 'Í', 'Ó', 'Ú', 'ñ', 'Ñ']
                ∨ c ∈ ['\t', '\n', Char.ofNat 0x0C, '\r', ' '])) →
          (∃ e : DomainError, validateFirstName n = some e)
            ∧ (∃ e : DomainError, validateLastName n = some e)) := by
  simp only [← isNameRune_iff]
  have hshape : MatchString reName (TrimSpace n) = true →
      ∀ c ∈ (TrimSpace n).data, isNameRune c = true :=
    fun h => ((matchString_plus_iff _ _).mp h).2
  constructor
  · intro h
    have hok : len (TrimSpace n) ≤ 100 ∧ MatchString reName (TrimSpace n) = true := by
      rcases h with h | h
      · exact ((validateFirstName_ok_iff n).mp h).2
      · exact ((validateLastName_ok_iff n).mp h).2
    exact ⟨le_trans (length_le_byteLen _) hok.1, hshape hok.2⟩
  · rintro ⟨c, hc, hbad⟩
    have hno : ¬ MatchString reName (TrimSpace n) = true := fun h => hbad (hshape h c hc)
    constructor
    · apply Option.ne_none_iff_exists'.mp
      intro h
      exact hno ((validateFirstName_ok_iff n).mp h).2.2
    · apply Option.ne_none_iff_exists'.mp
      intro h
      exact hno ((validateLastName_ok_iff n).mp h).2.2

/-- An instance of `validateName_accepted_shape`: an accepted name with accents and
inner white space, and a rejected one holding a digit. -/
theorem validateName_accepted_shape_witness :
    ((TrimSpace "  José María ").length ≤ 100
        ∧ ∀ c ∈ (TrimSpace "  José María ").data,
            ('a' ≤ c ∧ c ≤ 'z') ∨ ('A' ≤ c ∧ c ≤ 'Z')
              ∨ c ∈ ['á', 'é', 'í', 'ó', 'ú', 'Á', 'É', 'Í', 'Ó', 'Ú', 'ñ', 'Ñ']
              ∨ c ∈ ['\t', '\n', Char.ofNat 0x0C, '\r', ' '])
      ∧ ((∃ e : DomainError, validateFirstName "Ana2" = some e)
        ∧ (∃ e : DomainError, validateLastName "Ana2" = some e)) :=
  ⟨(validateName_accepted_shape "  José María ").1 (Or.inl (by decide)),
    (validateName_accepted_shape "Ana2").2 ⟨'2', by decide, by decide⟩⟩

/-! ## Ficha identifiers -/

theorem Regex.matches_exactly_cls_iff (p : Char → Bool) (n : Nat) (s : List Char) :
    Regex.Matches (Regex.exactly n (Regex.cls p)) s ↔
      s.length = n ∧ ∀ c ∈ s, p c = true := by
  induction n generalizing s with
  | zero =>
    simp only [Regex.exactly, Regex.matches_eps_iff]
    constructor
    · rintro rfl
      simp
    · rintro ⟨h, _⟩
      exact List.length_eq_zero.mp h
  | succ n ih =>
    simp only [Regex.exactly, Regex.matches_cls_cat_iff, ih]
    constructor
    · rintro ⟨c, t, rfl, hc, hlen, hall⟩
      refine ⟨by simp [hlen], ?_⟩
      intro a ha
      simp only [List.mem_cons] at ha
      rcases ha with rfl | ha
      · exact hc
      · exact hall a ha
    · rintro ⟨hlen, hall⟩
      cases s with
      | nil => simp at hlen
      | cons c t =>
        exact ⟨c, t, rfl, hall c (List.mem_cons_self c t), by simpa using hlen,
          fun a ha => hall a (List.mem_cons_of_mem c ha)⟩

theorem len_eq_zero_iff (s : String) : len s = 0 ↔ s = "" := by
  constructor
  · intro h
    have h1 := length_le_byteLen s.data
    have h2 : s.data.length = 0 := by
      unfold len at h
      omega
    have h3 : s.data = [] := List.length_eq_zero.mp h2
    cases s
    simp_all
  · rintro rfl
    rfl

/-- **C11.** `ValidateFichaID f` succeeds exactly when `f` is exactly 7 ASCII digits, with
no trimming; the empty string fails with the error of the empty ficha, every other
non-matching string with the error of the 7-digit format. -/
theorem validateFichaID_ok_iff (f : String) :
    (ValidateFichaID f = none ↔ f.length = 7 ∧ ∀ c ∈ f.data, '0' ≤ c ∧ c ≤ '9')
      ∧ (f = "" →
          ValidateFichaID f = some (NewDomainError "El ID de ficha no puede estar vacío"))
      ∧ (f ≠ "" → ¬ (f.length = 7 ∧ ∀ c ∈ f.data, '0' ≤ c ∧ c ≤ '9') →
          ValidateFichaID f
            = some (NewDomainError
                "El ID de ficha debe tener un formato numérico de 7 dígitos"))
      ∧ ValidateFichaID " 1234567"
          = some (NewDomainError "El ID de ficha debe tener un formato numérico de 7 dígitos")
      ∧ ValidateFichaID "1234567 "
          = some (NewDomainError
              "El ID de ficha debe tener un formato numérico de 7 dígitos") := by
  have hm : MatchString reFichaID f = true ↔
      f.length = 7 ∧ ∀ c ∈ f.data, '0' ≤ c ∧ c ≤ '9' := by
    simp only [← isDigit09_iff]
    rw [MatchString, reFichaID, Regex.rmatch_iff, Regex.matches_exactly_cls_iff]
    rfl
  refine ⟨?_, ?_, ?_, by decide, by decide⟩
  · rw [← hm]
    unfold ValidateFichaID
    by_cases h0 : len f = 0
    · have hf : f = "" := (len_eq_zero_iff f).mp h0
      subst hf
      decide
    · cases hmm : MatchString reFichaID f <;> simp [h0]
  · rintro rfl
    rfl
  · intro hne hbad
    rw [← hm] at hbad
    have h0 : ¬ len f = 0 := fun h => hne ((len_eq_zero_iff f).mp h)
    unfold ValidateFichaID
    simp only [Bool.not_eq_true] at hbad
    simp [h0, hbad]

/-- Witness for **C11**: a well-formed ficha passes, the empty one and a short one fail
each with its own error. -/
theorem validateFichaID_ok_iff_witness :
    ValidateFichaID "2826503" = none
      ∧ ValidateFichaID "" = some (NewDomainError "El ID de ficha no puede estar vacío")
      ∧ ValidateFichaID "28265"
          = some (NewDomainError
              "El ID de ficha debe tener un formato numérico de 7 dígitos") :=
  ⟨(validateFichaID_ok_iff "2826503").1.mpr (by decide),
    (validateFichaID_ok_iff "").2.1 rfl,
    (validateFichaID_ok_iff "28265").2.2.1 (by decide) (by decide)⟩

/-! ## The composite validator -/

/-- **C12.** `validateUserData` succeeds exactly when the five field validators succeed;
when it fails, its error is that of the first failing validator in the order first name,
last name, e-mail, document number, role, whatever the later fields hold. -/
theorem validateUserData_first_failure (caseTable : Char → Char)
    (firstName lastName email documentNumber : String) (role : UserRole) :
    (validateUserData caseTable firstName lastName email documentNumber role = none ↔
        validateFirstName firstName = none ∧ validateLastName lastName = none
          ∧ validateEmail caseTable email = none
          ∧ validateDocumentNumber documentNumber = none ∧ validateRole role = none)
      ∧ (∀ e : DomainError, validateFirstName firstName = some e →
          validateUserData caseTable firstName lastName email documentNumber role = some e)
      ∧ (∀ e : DomainError, validateFirstName firstName = none →
          validateLastName lastName = some e →
          validateUserData caseTable firstName lastName email documentNumber role = some e)
      ∧ (∀ e : DomainError, validateFirstName firstName = none →
          validateLastName lastName = none → validateEmail caseTable email = some e →
          validateUserData caseTable firstName lastName email documentNumber role = some e)
      ∧ (∀ e : DomainError, validateFirstName firstName = none →
          validateLastName lastName = none → validateEmail caseTable email = none →
          validateDocumentNumber documentNumber = some e →
          validateUserData caseTable firstName lastName email documentNumber role = some e)
      ∧ (∀ e : DomainError, validateFirstName firstName = none →
          validateLastName lastName = none → validateEmail caseTable email = none →
          validateDocumentNumber documentNumber = none → validateRole role = some e →
          validateUserData caseTable firstName lastName email documentNumber
            role = some e) := by
  unfold validateUserData
  refine ⟨?_, ?_, ?_, ?_, ?_, ?_⟩
  · cases validateFirstName firstName <;> cases validateLastName lastName <;>
      cases validateEmail caseTable email <;>
      cases validateDocumentNumber documentNumber <;> cases validateRole role <;> simp
  · intro e h1
    simp [h1]
  · intro e h1 h2
    simp [h1, h2]
  · intro e h1 h2 h3
    simp [h1, h2, h3]
  · intro e h1 h2 h3 h4
    simp [h1, h2, h3, h4]
  · intro e h1 h2 h3 h4 h5
    simp [h1, h2, h3, h4, h5]

/-- Witness for **C12**: with every field invalid the error is the first name's; with
only the e-mail and the role invalid it is the e-mail's. -/
theorem validateUserData_first_failure_witness :
    validateUserData id "A" "B" "invalid" "12" "root"
        = some (NewDomainError "El nombre debe tener al menos 2 caracteres")
      ∧ validateUserData id "Ana" "Diaz" "invalid" "1234567" "root"
        = some (NewDomainError "El email no tiene un formato válido") :=
  ⟨(validateUserData_first_failure id "A" "B" "invalid" "12" "root").2.1 _ (by decide),
    (validateUserData_first_failure id "Ana" "Diaz" "invalid" "1234567" "root").2.2.2.1 _
      (by decide) (by decide) (by decide)⟩

/-! ## Order of the password errors -/

/-- **C13.** A length violation is reported before any class violation; for a password of
valid length (`len` between 10 and 128) the error is that of the first class missing in
the order lowercase, uppercase, digit, special, so a password lacking exactly one class
fails with the message of that class. -/
theorem validatePassword_first_missing (p : String) :
    (len p < 10 →
        ValidatePassword p
          = some (NewDomainError "La contraseña debe tener al menos 10 caracteres"))
      ∧ (128 < len p →
        ValidatePassword p
          = some (NewDomainError "La contraseña no debe exceder los 128 caracteres"))
      ∧ (10 ≤ len p ∧ len p ≤ 128 →
          (¬ (∃ c ∈ p.data, 'a' ≤ c ∧ c ≤ 'z') →
            ValidatePassword p
              = some (NewDomainError
                  "La contraseña debe contener al menos una letra minúscula"))
          ∧ ((∃ c ∈ p.data, 'a' ≤ c ∧ c ≤ 'z') → ¬ (∃ c ∈ p.data, 'A' ≤ c ∧ c ≤ 'Z') →
            ValidatePassword p
              = some (NewDomainError
                  "La contraseña debe contener al menos una letra mayúscula"))
          ∧ ((∃ c ∈ p.data, 'a' ≤ c ∧ c ≤ 'z') → (∃ c ∈ p.data, 'A' ≤ c ∧ c ≤ 'Z') →
              ¬ (∃ c ∈ p.data, '0' ≤ c ∧ c ≤ '9') →
            ValidatePassword p
              = some (NewDomainError "La contraseña debe contener al menos un número"))
          ∧ ((∃ c ∈ p.data, 'a' ≤ c ∧ c ≤ 'z') → (∃ c ∈ p.data, 'A' ≤ c ∧ c ≤ 'Z') →
              (∃ c ∈ p.data, '0' ≤ c ∧ c ≤ '9') →
              ¬ (∃ c ∈ p.data, c ∈ ['!', '@', '#', '$', '%', '^', '&', '*']) →
            ValidatePassword p
              = some (NewDomainError
                  "La contraseña debe contener al menos un carácter especial (!@#$%^&*)"))) := by
  simp only [← isLowerAZ_iff, ← isUpperAZ_iff, ← isDigit09_iff, ← isPasswordSpecial_iff,
    ← matchString_search_iff]
  unfold ValidatePassword rePasswordLower rePasswordUpper rePasswordDigit rePasswordSpecial
  refine ⟨?_, ?_, ?_⟩
  · intro h
    simp [h]
  · intro h
    have h1 : ¬ len p < 10 := by omega
    simp [h1, h]
  · rintro ⟨h1, h2⟩
    have h3 : ¬ len p < 10 := by omega
    have h4 : ¬ len p > 128 := by omega
    simp only [h3, h4, if_false]
    refine ⟨?_, ?_, ?_, ?_⟩
    · intro a
      simp [a]
    · intro a b
      simp [a, b]
    · intro a b c
      simp [a, b, c]
    · intro a b c d
      simp [a, b, c, d]

/-- Witness for **C13**: a short password without any class gets the length error; of
valid length, one without digit and special character gets the digit error, one lacking
only the special character gets that error. -/
theorem validatePassword_first_missing_witness :
    ValidatePassword "abc"
        = some (NewDomainError "La contraseña debe tener al menos 10 caracteres")
      ∧ ValidatePassword "Abcdefghijk"
        = some (NewDomainError "La contraseña debe contener al menos un número")
      ∧ ValidatePassword "Abcdefghij1"
        = some (NewDomainError
            "La contraseña debe contener al menos un carácter especial (!@#$%^&*)") :=
  ⟨(validatePassword_first_missing "abc").1 (by decide),
    ((validatePassword_first_missing "Abcdefghijk").2.2 (by decide)).2.2.1
      ⟨'b', by decide, by decide⟩ ⟨'A', by decide, by decide⟩ (by decide),
    ((validatePassword_first_missing "Abcdefghij1").2.2 (by decide)).2.2.2
      ⟨'b', by decide, by decide⟩ ⟨'A', by decide, by decide⟩ ⟨'1', by decide, by decide⟩
      (by decide)⟩

/-! ## Legal consent -/

/-- **C14.** After `AcceptLegalPolicies pv tv dv ip` the three consent timestamps are set,
equal to one another and to `UpdatedAt`; the stored versions are `pv`, `tv`, `dv`; the
acceptance IP is `ip`; `HasAcceptedAllPolicies` holds and `NeedsPolicyUpdate pv tv dv`
does not. -/
theorem acceptLegalPolicies_spec (u : User) (now : Time) (pv tv dv ip : String) :
    (u.AcceptLegalPolicies now pv tv dv ip).AcceptedPrivacyPolicyAt ≠ none
      ∧ (u.AcceptLegalPolicies now pv tv dv ip).AcceptedTermsAt
          = (u.AcceptLegalPolicies now pv tv dv ip).AcceptedPrivacyPolicyAt
      ∧ (u.AcceptLegalPolicies now pv tv dv ip).AcceptedDataTreatmentAt
          = (u.AcceptLegalPolicies now pv tv dv ip).AcceptedPrivacyPolicyAt
      ∧ (u.AcceptLegalPolicies now pv tv dv ip).AcceptedPrivacyPolicyAt
          = some (u.AcceptLegalPolicies now pv tv dv ip).UpdatedAt
      ∧ (u.AcceptLegalPolicies now pv tv dv ip).PrivacyPolicyVersion = some pv
      ∧ (u.AcceptLegalPolicies now pv tv dv ip).TermsVersion = some tv
      ∧ (u.AcceptLegalPolicies now pv tv dv ip).DataTreatmentVersion = some dv
      ∧ (u.AcceptLegalPolicies now pv tv dv ip).AcceptanceIPAddress = some ip
      ∧ (u.AcceptLegalPolicies now pv tv dv ip).HasAcceptedAllPolicies = true
      ∧ (u.AcceptLegalPolicies now pv tv dv ip).NeedsPolicyUpdate pv tv dv = false := by
  refine ⟨?_, rfl, rfl, rfl, rfl, rfl, rfl, rfl, rfl, ?_⟩
  · simp [User.AcceptLegalPolicies]
  · simp [User.NeedsPolicyUpdate, User.HasAcceptedAllPolicies, User.AcceptLegalPolicies,
      User.versionDiffers]

theorem consentAllOrNone_mutate (u : User) (m : Mutation) (h : u.ConsentAllOrNone) :
    (u.mutate m).ConsentAllOrNone := by
  cases m with
  | markAsLoggedIn now => exact h
  | activate now => exact h
  | deactivate now => exact h
  | acceptLegalPolicies now pv tv dv ip =>
    right
    simp [User.mutate, User.AcceptLegalPolicies]

theorem consentAllOrNone_mutateAll (ms : List Mutation) :
    ∀ u : User, u.ConsentAllOrNone → (u.mutateAll ms).ConsentAllOrNone := by
  induction ms with
  | nil =>
    intro u h
    exact h
  | cons m ms ih =>
    intro u h
    exact ih (u.mutate m) (consentAllOrNone_mutate u m h)

/-- **C15.** Every user obtained from a successful `NewUser` by a finite sequence of
calls of `MarkAsLoggedIn`, `Activate`, `Deactivate` and `AcceptLegalPolicies` has its
seven consent fields all nil or all set. -/
theorem consent_never_partial (caseTable : Char → Char) (id : UUID) (now : Time)
    (firstName lastName email documentNumber documentType : String) (role : UserRole)
    (u : User) (ms : List Mutation)
    (h : NewUser caseTable id now firstName lastName email documentNumber documentType role
      = Except.ok u) :
    (u.mutateAll ms).ConsentAllOrNone := by
  apply consentAllOrNone_mutateAll
  unfold NewUser at h
  cases hv : validateUserData caseTable firstName lastName email documentNumber role with
  | some err =>
    rw [hv] at h
    cases h
  | none =>
    rw [hv] at h
    cases h
    left
    exact ⟨rfl, rfl, rfl, rfl, rfl, rfl, rfl⟩

/-- Witness for **C15**: a registered user who logs in, accepts the policies and is
deactivated has the seven consent fields set. -/
theorem consent_never_partial_witness :
    ∃ u : User,
      NewUser id 7 5 "Ana" "Diaz" "ana@sena.edu.co" "1234567" "CC" "admin" = Except.ok u
        ∧ (u.mutateAll
            [Mutation.markAsLoggedIn 6,
              Mutation.acceptLegalPolicies 8 "v1" "v1" "v2" "10.0.0.1",
              Mutation.deactivate 9]).ConsentAllOrNone
        ∧ (u.mutateAll
            [Mutation.markAsLoggedIn 6,
              Mutation.acceptLegalPolicies 8 "v1" "v1" "v2" "10.0.0.1",
              Mutation.deactivate 9]).DataTreatmentVersion = some "v2" :=
  match h : NewUser id 7 5 "Ana" "Diaz" "ana@sena.edu.co" "1234567" "CC" "admin" with
  | Except.ok u =>
    ⟨u, rfl,
      consent_never_partial id 7 5 "Ana" "Diaz" "ana@sena.edu.co" "1234567" "CC" "admin" u _ h,
      rfl⟩
  | Except.error e => by
    have hv : validateUserData id "Ana" "Diaz" "ana@sena.edu.co" "1234567" "admin" = none := by
      decide
    unfold NewUser at h
    rw [hv] at h
    cases h

/-! ## MFA sessions -/

/-- **C16.** `HasExceededAttempts` holds exactly when `Attempts ≥ MaxAttempts`: a fresh
session with a positive bound is not exhausted; with bound `n > 0` the session is not
exhausted below `n` counted attempts, is exhausted at the `n`-th, and at every larger
count. -/
theorem hasExceededAttempts_spec (s : MFASession) :
    (s.HasExceededAttempts = true ↔ s.Attempts ≥ s.MaxAttempts)
      ∧ (s.Attempts = 0 → 0 < s.MaxAttempts → s.HasExceededAttempts = false)
      ∧ (0 < s.MaxAttempts →
          ({ s with Attempts := s.MaxAttempts }).HasExceededAttempts = true
            ∧ ∀ k : Int,
                (k < s.MaxAttempts → ({ s with Attempts := k }).HasExceededAttempts = false)
                  ∧ (s.MaxAttempts ≤ k →
                      ({ s with Attempts := k }).HasExceededAttempts = true)) := by
  refine ⟨?_, ?_, ?_⟩
  · simp [MFASession.HasExceededAttempts]
  · intro h0 hpos
    simp [MFASession.HasExceededAttempts, h0, hpos]
  · intro _
    refine ⟨by simp [MFASession.HasExceededAttempts], ?_⟩
    intro k
    constructor
    · intro hk
      simp [MFASession.HasExceededAttempts, hk]
    · intro hk
      simp [MFASession.HasExceededAttempts, hk]

/-- Witness for **C16**: with three attempts allowed, the session is exhausted at the
third counted attempt and not at the second. -/
theorem hasExceededAttempts_spec_witness :
    issuedSession.HasExceededAttempts = false
      ∧ ({ issuedSession with Attempts := 2 }).HasExceededAttempts = false
      ∧ ({ issuedSession with Attempts := 3 }).HasExceededAttempts = true
      ∧ ({ issuedSession with Attempts := 4 }).HasExceededAttempts = true :=
  ⟨(hasExceededAttempts_spec issuedSession).2.1 rfl (by decide),
    (((hasExceededAttempts_spec issuedSession).2.2 (by decide)).2 2).1 (by decide),
    ((hasExceededAttempts_spec issuedSession).2.2 (by decide)).1,
    (((hasExceededAttempts_spec issuedSession).2.2 (by decide)).2 4).2 (by decide)⟩

/-- **C17.** With the clock reading `now` as input, `IsExpired` holds exactly when `now`
is strictly after `ExpiresAt` (not at `ExpiresAt` itself); it leaves the session as it
was; and once it holds at `now` it holds at every later reading. -/
theorem isExpired_spec (s : MFASession) (now later : Time) :
    ((s.IsExpired now).1 = true ↔ s.ExpiresAt < now)
      ∧ (s.IsExpired s.ExpiresAt).1 = false
      ∧ (s.IsExpired now).2 = s
      ∧ ((s.IsExpired now).1 = true → now ≤ later → (s.IsExpired later).1 = true) := by
  refine ⟨?_, ?_, rfl, ?_⟩
  · simp [MFASession.IsExpired]
  · simp [MFASession.IsExpired]
  · intro h hle
    simp only [MFASession.IsExpired, decide_eq_true_eq] at h ⊢
    exact lt_of_lt_of_le h hle

/-- Witness for **C17**: the session expiring at 400 is live at 400, expired at 401 and
still expired at 1000. -/
theorem isExpired_spec_witness :
    (issuedSession.IsExpired 400).1 = false
      ∧ (issuedSession.IsExpired 401).1 = true
      ∧ (issuedSession.IsExpired 1000).1 = true :=
  ⟨(isExpired_spec issuedSession 401 1000).2.1,
    (isExpired_spec issuedSession 401 1000).1.mpr (by decide),
    (isExpired_spec issuedSession 401 1000).2.2.2
      ((isExpired_spec issuedSession 401 1000).1.mpr (by decide)) (by decide)⟩

theorem marshalField_dash (goName : String) (v : GoValue) :
    marshalField ⟨goName, "-", v⟩ = none := rfl

/-- **C18.** The JSON objects of the MFA entities carry no secret material: changing
`SecretEncrypted` and `WebAuthnData` of a `UserMFAMethod`, `CodeHash` of an
`MFABackupCode`, or `CodeHash` of an `MFASession` leaves the emitted object the same. -/
theorem mfa_toJSON_hides_secrets :
    (∀ (m : UserMFAMethod) (secret webAuthn : Option String),
        ({ m with SecretEncrypted := secret, WebAuthnData := webAuthn }).toJSON = m.toJSON)
      ∧ (∀ (b : MFABackupCode) (hash : String), ({ b with CodeHash := hash }).toJSON = b.toJSON)
      ∧ (∀ (s : MFASession) (hash : Option String),
          ({ s with CodeHash := hash }).toJSON = s.toJSON) := by
  refine ⟨?_, ?_, ?_⟩
  · intro m secret webAuthn
    simp only [UserMFAMethod.toJSON, marshalStruct, UserMFAMethod.fields,
      List.filterMap_cons, marshalField_dash]
  · intro b hash
    simp only [MFABackupCode.toJSON, marshalStruct, MFABackupCode.fields,
      List.filterMap_cons, marshalField_dash]
  · intro s hash
    simp only [MFASession.toJSON, marshalStruct, MFASession.fields,
      List.filterMap_cons, marshalField_dash]

/-- **C19.** For a session whose `expires_at` is in the past, a verify call with any code
returns `SessionExpired` and leaves the session, its attempt counter included, as it
was. -/
theorem verify_expired (codeMatches : String → Option String → Bool) (now : Time)
    (code : String) (s : MFASession) (h : s.ExpiresAt < now) :
    (s.Verify codeMatches now code).1 = VerifyOutcome.SessionExpired
      ∧ (s.Verify codeMatches now code).2.Attempts = s.Attempts
      ∧ (s.Verify codeMatches now code).2 = s := by
  have he : (s.IsExpired now).1 = true := by
    simp [MFASession.IsExpired, h]
  simp [MFASession.Verify, he]

/-- Witness for **C19**: one instant after expiry, even the right code is answered with
`SessionExpired` and no attempt is counted. -/
theorem verify_expired_witness :
    (issuedSession.Verify (fun c h => h == some ("h(" ++ c ++ ")")) 401 "123456").1
        = VerifyOutcome.SessionExpired
      ∧ (issuedSession.Verify (fun c h => h == some ("h(" ++ c ++ ")")) 401 "123456").2.Attempts
        = 0 :=
  ⟨(verify_expired _ 401 "123456" issuedSession (by decide)).1,
    (verify_expired _ 401 "123456" issuedSession (by decide)).2.1⟩

/-! ## Frame of the simple mutators -/

/-- **C20.** `Deactivate` sets `IsActive` to false, `Activate` sets it to true,
`MarkAsLoggedIn` sets `LastLogin` to the current time; each sets `UpdatedAt` to the
current time and leaves every other field as it was.  `Activate` and `Deactivate` are
idempotent on `IsActive`, and `Activate` after `Deactivate` restores `IsActive`. -/
theorem simple_mutators_frame (u : User) (now later : Time) :
    ((u.Deactivate now).IsActive = false ∧ (u.Deactivate now).UpdatedAt = now
        ∧ (u.Deactivate now).LastLogin = u.LastLogin
        ∧ (u.Deactivate now).frame = u.frame)
      ∧ ((u.Activate now).IsActive = true ∧ (u.Activate now).UpdatedAt = now
        ∧ (u.Activate now).LastLogin = u.LastLogin
        ∧ (u.Activate now).frame = u.frame)
      ∧ ((u.MarkAsLoggedIn now).LastLogin = some now ∧ (u.MarkAsLoggedIn now).UpdatedAt = now
        ∧ (u.MarkAsLoggedIn now).IsActive = u.IsActive
        ∧ (u.MarkAsLoggedIn now).frame = u.frame)
      ∧ ((u.Activate now).Activate later).IsActive = (u.Activate now).IsActive
      ∧ ((u.Deactivate now).Deactivate later).IsActive = (u.Deactivate now).IsActive
      ∧ ((u.Deactivate now).Activate later).IsActive = true :=
  ⟨⟨rfl, rfl, rfl, rfl⟩, ⟨rfl, rfl, rfl, rfl⟩, ⟨rfl, rfl, rfl, rfl⟩, rfl, rfl, rfl⟩

/-! ## Password length in characters -/

/-- **C21** (defect of the code). The password `aA1!ñññ` has 7 characters and holds the
four classes; `ValidatePassword` accepts it, because the lower bound of 10 is checked on
`len`, the byte count, which is 10 here.  So an accepted password can have fewer than 10
characters, and a password of fewer than 10 characters is not always answered with the
error of the minimum length. -/
theorem validatePassword_accepts_7_runes :
    ("aA1!ñññ" : String).length = 7
      ∧ len "aA1!ñññ" = 10
      ∧ ValidatePassword "aA1!ñññ" = none
      ∧ ValidatePassword "aA1!ñññ"
          ≠ some (NewDomainError "La contraseña debe tener al menos 10 caracteres") := by
  decide

/-! ## Policy versions never stored -/

/-- **C22.** `NeedsPolicyUpdate` takes a nil stored version as matching anything: with the
three consent timestamps set and the three stored versions nil it returns false whatever
the current versions; in general, with the timestamps set, it returns true exactly when
some stored version is set and differs from the current one, so a nil stored version
never contributes a mismatch. -/
theorem needsPolicyUpdate_nil_version (u : User) (cp ct cd : String)
    (h1 : u.AcceptedPrivacyPolicyAt ≠ none) (h2 : u.AcceptedTermsAt ≠ none)
    (h3 : u.AcceptedDataTreatmentAt ≠ none) :
    ((u.PrivacyPolicyVersion = none ∧ u.TermsVersion = none ∧ u.DataTreatmentVersion = none) →
        u.NeedsPolicyUpdate cp ct cd = false)
      ∧ (u.NeedsPolicyUpdate cp ct cd = true ↔
          (∃ v, u.PrivacyPolicyVersion = some v ∧ v ≠ cp)
            ∨ (∃ v, u.TermsVersion = some v ∧ v ≠ ct)
            ∨ (∃ v, u.DataTreatmentVersion = some v ∧ v ≠ cd))
      ∧ (u.PrivacyPolicyVersion = none →
          (u.NeedsPolicyUpdate cp ct cd = true ↔
            (∃ v, u.TermsVersion = some v ∧ v ≠ ct)
              ∨ (∃ v, u.DataTreatmentVersion = some v ∧ v ≠ cd))) := by
  have hacc : u.HasAcceptedAllPolicies = true := by
    simp [User.HasAcceptedAllPolicies, Option.isSome_iff_ne_none, h1, h2, h3]
  have hv : ∀ (stored : Option String) (current : String),
      User.versionDiffers stored current = true ↔ ∃ v, stored = some v ∧ v ≠ current := by
    intro stored current
    cases stored <;> simp [User.versionDiffers]
  have key : u.NeedsPolicyUpdate cp ct cd = true ↔
      (∃ v, u.PrivacyPolicyVersion = some v ∧ v ≠ cp)
        ∨ (∃ v, u.TermsVersion = some v ∧ v ≠ ct)
        ∨ (∃ v, u.DataTreatmentVersion = some v ∧ v ≠ cd) := by
    unfold User.NeedsPolicyUpdate
    simp only [hacc, Bool.not_true, Bool.false_eq_true, if_false, Bool.or_eq_true, hv,
      or_assoc]
  refine ⟨?_, key, ?_⟩
  · rintro ⟨hp, ht, hd⟩
    have hno : ¬ u.NeedsPolicyUpdate cp ct cd = true := by
      rw [key]
      simp [hp, ht, hd]
    simpa using hno
  · intro hp
    rw [key]
    simp [hp]

/-- Witness for **C22**: a user with the three consents recorded and no version stored
needs no update, whatever the current versions; with only the terms version stored, a
new terms version is the one mismatch. -/
theorem needsPolicyUpdate_nil_version_witness :
    ({ storedAdmin "x" with
        AcceptedPrivacyPolicyAt := some 20
        AcceptedTermsAt := some 20
        AcceptedDataTreatmentAt := some 20 } : User).NeedsPolicyUpdate "v9" "v9" "v9" = false
      ∧ ({ storedAdmin "x" with
        AcceptedPrivacyPolicyAt := some 20
        AcceptedTermsAt := some 20
        AcceptedDataTreatmentAt := some 20
        TermsVersion := some "v1" } : User).NeedsPolicyUpdate "v9" "v2" "v9" = true :=
  ⟨(needsPolicyUpdate_nil_version _ "v9" "v9" "v9" (by decide) (by decide) (by decide)).1
      ⟨rfl, rfl, rfl⟩,
    (needsPolicyUpdate_nil_version _ "v9" "v2" "v9" (by decide) (by decide) (by decide)).2.1.mpr
      (Or.inr (Or.inl ⟨"v1", rfl, by decide⟩))⟩

end Sicora
